import Mathlib

/-
  Verification development for the `instr_dsl` instrumentation-DSL compiler.

  Each section below gives a shallow embedding of one component of the Rust
  source (src/src/...), translated definition-by-definition from the code,
  followed by theorems settling the specification claims about it.

  Conventions used throughout:
  * Rust `HashMap`s are modelled as association lists (`List (k × v)`); where
    iteration order matters this is noted at the use site.
  * Machine integers (`i32`/`u32`/`usize`) are modelled as `Nat`/`Int` with
    explicit `% 2^32` where wrap-around can occur.
  * Fallible Rust code (`Result`) is modelled with `Except`/`Option`.
-/

-- ===========================================================================
-- §1  DataType and its PartialEq impl (src/src/parser/types.rs, lines 84-132)
-- ===========================================================================

namespace Whamm

/-- `DataType` from src/src/parser/types.rs (lines 117-132).  `Tuple` carries
`ty_info: Vec<Box<DataType>>` and `Map` carries boxed key/value types; boxes
are erased in the embedding. -/
inductive DataType where
  | I32
  | U32
  | Boolean
  | Null
  | Str
  | Tuple (ty_info : List DataType)
  | Map (key_ty : DataType) (val_ty : DataType)
  | AssumeGood

mutual

/-- The `impl PartialEq for DataType` at src/src/parser/types.rs lines 84-113,
with match arms in source order.  The `Tuple` arm's
`ty_info0.len() == ty_info1.len() && zip(..).all(..)` is embedded as a length
check plus `dataTypeListEq`, which (like `zip`+`all`) walks the two vectors in
lockstep and stops at the shorter one. -/
def dataTypeEq : DataType → DataType → Bool
  | DataType.I32, DataType.I32 => true
  | DataType.Boolean, DataType.Boolean => true
  | DataType.Null, DataType.Null => true
  | DataType.Str, DataType.Str => true
  | _, DataType.AssumeGood => true
  | DataType.AssumeGood, _ => true
  | DataType.Tuple t0, DataType.Tuple t1 =>
      t0.length == t1.length && dataTypeListEq t0 t1
  | DataType.Map k0 v0, DataType.Map k1 v1 =>
      dataTypeEq k0 k1 && dataTypeEq v0 v1
  | _, _ => false

/-- Lockstep comparison of the two `ty_info` vectors (the semantics of
`iter().zip(iter()).all(..)`: the walk ends when either list does). -/
def dataTypeListEq : List DataType → List DataType → Bool
  | [], _ => true
  | _ :: _, [] => true
  | a :: as_, b :: bs => dataTypeEq a b && dataTypeListEq as_ bs

end

end Whamm

-- ===========================================================================
-- §2  The synthesized `strcmp` Wasm function
--     (src/src/generator/emitters.rs, emit_dtrace_strcmp_fn, lines 64-211)
-- ===========================================================================

namespace Strcmp

def pow32 : Nat := 2 ^ 32

/-- `i32.load8_s` (LoadKind::I32_8 with ExtendedLoad::SignExtend): load one
byte and sign-extend it to an i32.  Memory is a total map from addresses to
byte values; the `% 256` keeps the byte range explicit. -/
def loadByteS (mem : Nat → Nat) (addr : Nat) : Int :=
  if mem addr % 256 < 128 then (mem addr % 256 : Int) else (mem addr % 256 : Int) - 256

/-- The `loop_` labelled `cmp_char` in emit_dtrace_strcmp_fn (lines 115-175):
per iteration it

  1. branches to the end of `eq_block` (result 1) when `(i <u str0_size)` is
     zero, i.e. when `i` has reached `str0_size`;
  2. loads the sign-extended byte at `str0_offset + i` and `str1_offset + i`
     (i32.add wraps mod 2^32) and branches to the end of `neq_block`
     (result 0) when they are not equal (`I32Ne`);
  3. otherwise increments `i` and re-enters the loop.

Since the loop runs only with `i < str0_size < 2^32`, the i32 wrap
on `i + 1` never fires and is omitted. -/
def strcmpLoop (mem : Nat → Nat) (str0Off str1Off size i : Nat) : Nat :=
  if h : i < size then
    if loadByteS mem ((str0Off + i) % pow32) ≠ loadByteS mem ((str1Off + i) % pow32) then 0
    else strcmpLoop mem str0Off str1Off size (i + 1)
  else 1
termination_by size - i
decreasing_by omega

/-- Shallow embedding of the Wasm function body built by
`emit_dtrace_strcmp_fn` (src/src/generator/emitters.rs lines 88-186).  The
arguments are, in order, `str0_offset, str0_size, str1_offset, str1_size`
(the order given to `strcmp.finish` at line 187); each is an i32, reduced
mod 2^32 on entry.  Control flow of the body:

  block (neq)              -- fallthrough after the block: i32.const 0; return
    block (eq)             -- fallthrough after the block: i32.const 1; return
      (str0_size == str1_size)   br_if neq     -- lines 97-102
      (str0_offset == str1_offset) br_if eq    -- lines 104-109
      i := 0; loop cmp_char ... (strcmpLoop)   -- lines 111-175

so a branch to `neq` yields 0 and a branch to `eq` yields 1.  Note the first
`br_if` fires when the sizes ARE equal (`I32Eq`), sending control to the
"return 0" exit; when the sizes differ, execution falls through into the
offset check and the byte loop.  (The trailing `.br_if(eq)` at line 177 is
after an infinite `loop` whose body always ends in `br cmp_char`, so it is
never executed.) -/
def strcmpWasm (mem : Nat → Nat) (a0 a1 a2 a3 : Nat) : Nat :=
  let str0Off := a0 % pow32
  let str0Size := a1 % pow32
  let str1Off := a2 % pow32
  let str1Size := a3 % pow32
  if str0Size = str1Size then 0
  else if str0Off = str1Off then 1
  else strcmpLoop mem str0Off str1Off str0Size 0

/-- All bytes of the two strings agree on the first `size` positions. -/
def allBytesEq (mem : Nat → Nat) (o0 o1 size : Nat) : Bool :=
  (List.range size).all fun i => mem ((o0 + i) % pow32) % 256 == mem ((o1 + i) % pow32) % 256

/-- The behaviour the specification (and claim C1) prescribes for the
synthesized `strcmp`: 0 when the sizes differ; 1 when sizes are equal and the
offsets coincide; otherwise a byte-wise comparison returning 1 iff every byte
agrees.  Stated from the spec text, for comparison with `strcmpWasm`. -/
def strcmpSpec (mem : Nat → Nat) (a0 a1 a2 a3 : Nat) : Nat :=
  let o0 := a0 % pow32
  let s0 := a1 % pow32
  let o1 := a2 % pow32
  let s1 := a3 % pow32
  if s0 ≠ s1 then 0
  else if o0 = o1 then 1
  else if allBytesEq mem o0 o1 s0 then 1 else 0

end Strcmp

/-- C1: the synthesized `strcmp` is claimed to return 0 whenever the two input
string sizes differ, 1 when the sizes are equal and the offsets coincide, and
otherwise the result of a byte-wise comparison.  The code has the first size
check inverted (`I32Eq` + `br_if(neq)` instead of a branch on inequality,
contradicting the comment "Check if sizes are equal, if not return 0"): on two
empty strings at the same offset the emitted function returns 0 where the
claimed behaviour requires 1, and in general it returns 0 whenever the two
size arguments are equal. -/
theorem c1_strcmp_size_check_inverted :
    Strcmp.strcmpWasm (fun _ => 0) 0 0 0 0 = 0 ∧
    Strcmp.strcmpSpec (fun _ => 0) 0 0 0 0 = 1 ∧
    (∀ mem : Nat → Nat, ∀ a0 s a2 : Nat,
      Strcmp.strcmpWasm mem a0 s a2 s = 0) := by
  refine ⟨rfl, rfl, fun mem a0 s a2 => ?_⟩
  simp [Strcmp.strcmpWasm]

/-- C9: `DataType` equality is not reflexive at `U32` (no `(U32, U32)` match
arm, so it falls to the catch-all `false`), while `I32`, `Boolean`, `Null`
and `Str` each compare equal to themselves, and `AssumeGood` compares equal
to every type on either side. -/
theorem c9_dataTypeEq_u32_irreflexive :
    Whamm.dataTypeEq Whamm.DataType.U32 Whamm.DataType.U32 = false ∧
    Whamm.dataTypeEq Whamm.DataType.I32 Whamm.DataType.I32 = true ∧
    Whamm.dataTypeEq Whamm.DataType.Boolean Whamm.DataType.Boolean = true ∧
    Whamm.dataTypeEq Whamm.DataType.Null Whamm.DataType.Null = true ∧
    Whamm.dataTypeEq Whamm.DataType.Str Whamm.DataType.Str = true ∧
    (∀ t : Whamm.DataType,
      Whamm.dataTypeEq t Whamm.DataType.AssumeGood = true ∧
      Whamm.dataTypeEq Whamm.DataType.AssumeGood t = true) := by
  refine ⟨?_, ?_, ?_, ?_, ?_, ?_⟩ <;> try simp [Whamm.dataTypeEq]
  intro t
  cases t <;> simp [Whamm.dataTypeEq]

-- ===========================================================================
-- §3  Recording the strcmp function id in the symbol table
--     (src/src/generator/emitters.rs, emit_dtrace_strcmp_fn, lines 187-211)
-- ===========================================================================

namespace StrcmpRecord

/-- Symbol-table records.  The full `Record` enum lives in
`crate::verifier::types`, which is not among the provided sources; the
variants and the fields used here (`Fn { addr, .. }`, `Var { addr, .. }`) are
reconstructed from spec §3 and from the patterns matched in
src/src/generator/emitters.rs and src/src/verifier/builder_visitor.rs.
`addr` holds the assigned Wasm id (walrus `FunctionId`, modelled as `Nat`);
fields not consulted by `emit_dtrace_strcmp_fn` are omitted. -/
inductive Record where
  | Fn (name : String) (addr : Option Nat)
  | Var (name : String) (addr : Option Nat)
  | Container (name : String)
deriving Repr, DecidableEq

/-- Modelled from the spec: the symbol table (spec §3) is a scope tree of
records keyed by name; `emit_dtrace_strcmp_fn` performs a single
`lookup(&f.name)` followed by `get_record_mut(&rec_id)`, so it is modelled
flat: `records` is the record arena and `names` the name→record-id binding
visible from the current scope. -/
structure SymbolTable where
  records : List Record
  names : List (String × Nat)
deriving Repr, DecidableEq

/-- `SymbolTable::lookup(name) -> Option<rec_id>`. -/
def SymbolTable.lookup (t : SymbolTable) (name : String) : Option Nat :=
  (t.names.find? (fun p => p.fst == name)).map (fun p => p.snd)

/-- `SymbolTable::get_record(rec_id)`. -/
def SymbolTable.getRecord (t : SymbolTable) (recId : Nat) : Option Record :=
  t.records.get? recId

/-- The record-update tail of `emit_dtrace_strcmp_fn`
(src/src/generator/emitters.rs lines 187-211), returning the function's
result together with the table it leaves behind.

The source matches `self.table.get_record_mut(&rec_id)` against
`Some(Record::Fn { mut addr, .. })`.  The explicit `mut` binder resets the
match-ergonomics default binding mode from `ref mut` to by-value, so `addr`
is a *copy* of the record's `Option<FunctionId>` field (which is `Copy`); the
assignment `addr = Some(strcmp_id)` on line 199 writes only that local copy —
rustc reports it as an unused assignment — and the table row itself is never
modified.  The embedding accordingly returns the table unchanged in the
`Record.Fn` arm. -/
def strcmpFinishUpdate (table : SymbolTable) (fname : String) (strcmpId : Nat) :
    Bool × SymbolTable :=
  match table.lookup fname with
  | none => (false, table)
  | some recId =>
    match table.getRecord recId with
    | some (Record.Fn _ _) => (true, table)
    | some _ => (false, table)
    | none => (false, table)

/-- The `addr` of the record a name resolves to, if it is a `Record::Fn`. -/
def fnAddrOf (t : SymbolTable) (name : String) : Option Nat :=
  match t.lookup name with
  | none => none
  | some recId =>
    match t.getRecord recId with
    | some (Record.Fn _ addr) => addr
    | _ => none

end StrcmpRecord

/-- C2: the claim says that when `emit_dtrace_strcmp_fn` returns `true`, the
`strcmp` `Record::Fn` has `addr = Some(<id returned by strcmp.finish>)`.  In
the code the pattern `Record::Fn { mut addr, .. }` binds `addr` by value, so
the assignment `addr = Some(strcmp_id)` mutates a dead local copy: the update
succeeds (returns `true`) yet the symbol table is returned bit-for-bit
unchanged, and on a table whose `strcmp` record has `addr = None` the `addr`
is still `None` afterwards. -/
theorem c2_strcmp_addr_not_recorded :
    (∀ (t : StrcmpRecord.SymbolTable) (n : String) (i : Nat),
      (StrcmpRecord.strcmpFinishUpdate t n i).snd = t) ∧
    (StrcmpRecord.strcmpFinishUpdate
        ⟨[StrcmpRecord.Record.Fn "strcmp" none], [("strcmp", 0)]⟩ "strcmp" 7).fst = true ∧
    StrcmpRecord.fnAddrOf
        (StrcmpRecord.strcmpFinishUpdate
          ⟨[StrcmpRecord.Record.Fn "strcmp" none], [("strcmp", 0)]⟩ "strcmp" 7).snd
        "strcmp" = none := by
  refine ⟨?_, by decide, by decide⟩
  intro t n i
  unfold StrcmpRecord.strcmpFinishUpdate
  rcases t.lookup n with _ | recId
  · rfl
  · rcases hr : t.getRecord recId with _ | r
    · simp [hr]
    · cases r <;> simp [hr]


-- ===========================================================================
-- §4  probe_spec_from_rule (src/src/parser/dtrace_parser.rs, lines 173-237)
-- ===========================================================================

namespace SpecParse

/-- Rust `&str` values are embedded as `List Char`. -/
abbrev Chars := List Char

/-- The string "*" pushed for a defaulted spec component. -/
def star : Chars := ['*']

/-- Split a string at every `':'`, keeping empty components.  Used to derive
the pest sub-pairs of a `PROBE_SPEC` from its matched text: the inner pairs
handed to `pair.into_inner()` are exactly the `PROBE_ID` components of the
matched text, i.e. its non-empty colon-separated pieces in order, and the
recursive `Rule::PROBE_ID` arm of `probe_spec_from_rule` (lines 176-183)
returns each such component as its own string. -/
def splitColon : Chars → List Chars
  | [] => [[]]
  | c :: rest =>
    if c = ':' then [] :: splitColon rest
    else
      match splitColon rest with
      | [] => [[c]]
      | p :: ps => (c :: p) :: ps

/-- `str::strip_prefix`: `dropPre pre s = some rest` iff `s = pre ++ rest`. -/
def dropPre : Chars → Chars → Option Chars
  | [], s => some s
  | _ :: _, [] => none
  | a :: as_, b :: bs => if a = b then dropPre as_ bs else none

/-- The inner `while spec_as_str.starts_with("::")` loop of the
`Rule::PROBE_SPEC` arm (src/src/parser/dtrace_parser.rs lines 212-219): each
iteration pushes a `"*"` onto `contents` and strips `"::"`; if a single `':'`
then remains at the front, it pushes another `"*"` and strips that too.
Returns the `"*"`s pushed (in order) together with the remaining string. -/
def starLoop : Chars → List Chars × Chars
  | ':' :: ':' :: ':' :: rest2 =>
    let p := starLoop rest2
    (star :: star :: p.1, p.2)
  | ':' :: ':' :: rest =>
    let p := starLoop rest
    (star :: p.1, p.2)
  | s => ([], s)
termination_by s => s.length
decreasing_by all_goals (simp; omega)

/-- The `if spec_as_str.starts_with(":") { strip_prefix(":") }` that follows
the inner while loop (lines 220-222). -/
def stripOneColon : Chars → Chars
  | ':' :: rest => rest
  | s => s

/-- The `while contents.len() < 4` loop of the `Rule::PROBE_SPEC` arm
(src/src/parser/dtrace_parser.rs lines 190-223).  `s` is `spec_as_str`,
`parts` the remaining `PROBE_ID` components of the pest iterator, `contents`
the accumulator.  Per iteration, in source order:

  * a leading `':'` pushes `"*"` and strips the colon (`continue`);
  * otherwise the next part is taken (`parts.next()`); iterator exhaustion
    breaks the loop; the part text is stripped from the front of `s`
    (`strip_prefix(&res).unwrap()` — the `none` branch models the panic,
    unreachable for parser-produced inputs) and pushed, then the inner
    `starLoop` runs and a final single leading `':'` is stripped. -/
def specLoop (s : Chars) (parts contents : List Chars) : List Chars :=
  if contents.length < 4 then
    match s with
    | ':' :: s1 => specLoop s1 parts (contents ++ [star])
    | _ =>
      match parts with
      | [] => contents
      | res :: rest =>
        match dropPre res s with
        | none => contents
        | some s1 =>
          let p := starLoop s1
          specLoop (stripOneColon p.2) rest (contents ++ [res] ++ p.1)
  else contents
termination_by (parts.length, s.length)

/-- `probe_spec_from_rule`, `Rule::PROBE_SPEC` arm, as the list of components
it accumulates: runs `specLoop` and, when a single component resulted (the
`BEGIN`/`END` special case at lines 226-231), prepends `"core", "*", "*"`. -/
def probeSpecContents (spec : Chars) : List Chars :=
  let contents := specLoop spec ((splitColon spec).filter (fun p => !p.isEmpty)) []
  if contents.length = 1 then
    ['c', 'o', 'r', 'e'] :: star :: star :: contents
  else contents

/-- `contents.join(":")`. -/
def joinColon : List Chars → Chars
  | [] => []
  | [p] => p
  | p :: ps => p ++ ':' :: joinColon ps

/-- `probe_spec_from_rule` on the matched text of a `PROBE_SPEC`. -/
def probeSpecFromRule (spec : Chars) : Chars :=
  joinColon (probeSpecContents spec)

end SpecParse

namespace SpecParse

theorem splitColon_colon_free (p : Chars) (hp : ∀ c ∈ p, c ≠ ':') :
    splitColon p = [p] := by
  induction p with
  | nil => rfl
  | cons c rest ih =>
    have hc : c ≠ ':' := hp c (List.mem_cons_self c rest)
    have hrest : ∀ x ∈ rest, x ≠ ':' := fun x hx => hp x (List.mem_cons_of_mem c hx)
    simp [splitColon, hc, ih hrest]

theorem splitColon_append (a r : Chars) (ha : ∀ c ∈ a, c ≠ ':') :
    splitColon (a ++ ':' :: r) = a :: splitColon r := by
  induction a with
  | nil => simp [splitColon]
  | cons c rest ih =>
    have hc : c ≠ ':' := ha c (List.mem_cons_self c rest)
    have hrest : ∀ x ∈ rest, x ≠ ':' := fun x hx => ha x (List.mem_cons_of_mem c hx)
    have hih := ih hrest
    simp only [List.cons_append, splitColon, if_neg hc, List.append_eq, hih]

theorem dropPre_append (a b : Chars) : dropPre a (a ++ b) = some b := by
  induction a with
  | nil => rfl
  | cons c rest ih => simp [dropPre, ih]

theorem starLoop_nil : starLoop [] = ([], []) := by simp [starLoop]

theorem starLoop_one (x : Char) (t : Chars) (hx : x ≠ ':') :
    starLoop (':' :: x :: t) = ([], ':' :: x :: t) := by
  simp [starLoop, hx]

theorem starLoop_two (x : Char) (t : Chars) (hx : x ≠ ':') :
    starLoop (':' :: ':' :: x :: t) = ([star], x :: t) := by
  simp [starLoop, hx]

theorem starLoop_three (x : Char) (t : Chars) (hx : x ≠ ':') :
    starLoop (':' :: ':' :: ':' :: x :: t) = ([star, star], x :: t) := by
  simp [starLoop, hx]

theorem stripOneColon_ne (x : Char) (t : Chars) (hx : x ≠ ':') :
    stripOneColon (x :: t) = x :: t := by
  simp [stripOneColon, hx]

theorem specLoop_star_step (s : Chars) (parts contents : List Chars)
    (h : contents.length < 4) :
    specLoop (':' :: s) parts contents = specLoop s parts (contents ++ [star]) := by
  rw [specLoop]
  simp [h]

theorem specLoop_part_step (x : Char) (xs s : Chars) (rest contents : List Chars)
    (h : contents.length < 4) (hx : x ≠ ':') :
    specLoop ((x :: xs) ++ s) ((x :: xs) :: rest) contents
      = specLoop (stripOneColon (starLoop s).2) rest
          (contents ++ [x :: xs] ++ (starLoop s).1) := by
  have hd : dropPre (x :: xs) (x :: (xs ++ s)) = some s := by
    have hda := dropPre_append (x :: xs) s
    simpa using hda
  rw [specLoop]
  simp only [if_pos h]
  have hne : ¬ (x = ':') := hx
  simp [hne, hd]
  intro r2 heq
  simp only [List.cons_append, List.cons.injEq] at heq
  exact hx heq.1

theorem specLoop_nil_nil (contents : List Chars) :
    specLoop [] [] contents = contents := by
  rw [specLoop]
  · by_cases h : contents.length < 4
    · rw [if_pos h]
    · rw [if_neg h]
  · intro r heq
    exact List.noConfusion heq

end SpecParse

namespace SpecParse

theorem starLoop_sep1 (r : Chars) (hr : r.head? ≠ some ':') :
    starLoop (':' :: r) = ([], ':' :: r) := by
  cases r with
  | nil => simp [starLoop]
  | cons x t =>
    have hx : x ≠ ':' := by simpa using hr
    exact starLoop_one x t hx

theorem starLoop_sep2 (r : Chars) (hr : r.head? ≠ some ':') :
    starLoop (':' :: ':' :: r) = ([star], r) := by
  cases r with
  | nil => simp [starLoop]
  | cons x t =>
    have hx : x ≠ ':' := by simpa using hr
    exact starLoop_two x t hx

theorem starLoop_sep3 (r : Chars) (hr : r.head? ≠ some ':') :
    starLoop (':' :: ':' :: ':' :: r) = ([star, star], r) := by
  cases r with
  | nil => simp [starLoop]
  | cons x t =>
    have hx : x ≠ ':' := by simpa using hr
    exact starLoop_three x t hx

theorem stripOneColon_no_colon (r : Chars) (hr : r.head? ≠ some ':') :
    stripOneColon r = r := by
  cases r with
  | nil => rfl
  | cons x t =>
    have hx : x ≠ ':' := by simpa using hr
    exact stripOneColon_ne x t hx

/-- A part that is followed by nothing: strips itself, runs `starLoop` on the
empty remainder, and pushes only itself. -/
theorem specLoop_last (x : Char) (xs : Chars) (rest contents : List Chars)
    (h : contents.length < 4) (hx : x ≠ ':') :
    specLoop (x :: xs) ((x :: xs) :: rest) contents
      = specLoop [] rest (contents ++ [x :: xs]) := by
  have hps := specLoop_part_step x xs [] rest contents h hx
  simpa [starLoop_nil, stripOneColon] using hps

/-- A component, or `"*"` when it is empty (the shape the spec prescribes for
defaulted components). -/
def orStar (c : Chars) : Chars :=
  if c.isEmpty then star else c

end SpecParse

namespace SpecParse

theorem splitColon_colon (r : Chars) : splitColon (':' :: r) = [] :: splitColon r := by
  simp [splitColon]

end SpecParse

/-- C4: the claim says `probe_spec_from_rule` expands single-part specs
(`BEGIN`, `END`) to `core:*:*:begin` / `core:*:*:end` and fills every missing
leading component with `*`, so that the result always has the four-part shape
`provider:package:event:mode`.  Both halves fail on the code: a single-part
spec keeps its original casing (`BEGIN` yields `core:*:*:BEGIN`, not
`core:*:*:begin`), and trailing missing components are not filled — the spec
text `wasm:::` (a valid probe spec per the repository test suite) yields the
three-part string `wasm:*:*`. -/
theorem c4_probe_spec_counterexample :
    SpecParse.probeSpecFromRule ("wasm:::".toList) = "wasm:*:*".toList ∧
    (SpecParse.splitColon (SpecParse.probeSpecFromRule ("wasm:::".toList))).length = 3 ∧
    SpecParse.probeSpecFromRule ("BEGIN".toList) = "core:*:*:BEGIN".toList ∧
    "core:*:*:BEGIN".toList ≠ "core:*:*:begin".toList := by
  refine ⟨?_, ?_, ?_, by decide⟩ <;>
    simp [SpecParse.probeSpecFromRule, SpecParse.probeSpecContents, SpecParse.specLoop,
          SpecParse.splitColon, SpecParse.dropPre, SpecParse.starLoop, SpecParse.stripOneColon,
          SpecParse.joinColon, SpecParse.star]

/-- C4 (amended): `probe_spec_from_rule` expands a single-part spec to
`core:*:*:<part>` with the part kept in its original casing (so `BEGIN` gives
`core:*:*:BEGIN`), and in a colon-delimited spec with exactly three colons
and a non-empty final (mode) component every missing — i.e. empty — leading
or medial component is replaced by `*`, so exactly then the result has the
shape `provider:package:event:mode`; a spec with fewer colons or an empty
final component can return fewer than four components. -/
theorem c4_probe_spec_amended :
    (∀ p : SpecParse.Chars, p ≠ [] → (∀ c ∈ p, c ≠ ':') →
      SpecParse.probeSpecFromRule p = "core:*:*:".toList ++ p) ∧
    (∀ c1 c2 c3 c4 : SpecParse.Chars,
      (∀ c ∈ c1, c ≠ ':') → (∀ c ∈ c2, c ≠ ':') →
      (∀ c ∈ c3, c ≠ ':') → (∀ c ∈ c4, c ≠ ':') → c4 ≠ [] →
      SpecParse.probeSpecFromRule (SpecParse.joinColon [c1, c2, c3, c4])
        = SpecParse.joinColon
            [SpecParse.orStar c1, SpecParse.orStar c2, SpecParse.orStar c3, c4]) := by
  constructor
  · intro p hp hpc
    obtain ⟨x, xs, rfl⟩ : ∃ x xs, p = x :: xs := by
      cases p with
      | nil => exact absurd rfl hp
      | cons x xs => exact ⟨x, xs, rfl⟩
    have hx : x ≠ ':' := hpc x (by simp)
    rw [SpecParse.probeSpecFromRule, SpecParse.probeSpecContents,
        SpecParse.splitColon_colon_free _ hpc]
    simp only [List.filter, List.isEmpty, Bool.not_false, Bool.not_true]
    rw [SpecParse.specLoop_last x xs [] [] (by simp) hx, SpecParse.specLoop_nil_nil]
    simp [SpecParse.joinColon, SpecParse.star]
  · intro c1 c2 c3 c4 h1 h2 h3 h4 h4ne
    obtain ⟨d, ds, rfl⟩ : ∃ d ds, c4 = d :: ds := by
      cases c4 with
      | nil => exact absurd rfl h4ne
      | cons d ds => exact ⟨d, ds, rfl⟩
    have hd1 : d ≠ ':' := h4 d (by simp)
    cases c1 with
    | cons a as =>
      have ha1 : a ≠ ':' := h1 a (by simp)
      cases c2 with
      | cons b bs =>
        have hb1 : b ≠ ':' := h2 b (by simp)
        cases c3 with
        | cons c cs =>
          have hc1 : c ≠ ':' := h3 c (by simp)
          have hin : SpecParse.joinColon [a :: as, b :: bs, c :: cs, d :: ds]
              = (a :: as) ++ ':' :: ((b :: bs) ++ ':' :: ((c :: cs) ++ ':' :: (d :: ds))) := by
            simp [SpecParse.joinColon]
          rw [SpecParse.probeSpecFromRule, SpecParse.probeSpecContents, hin,
              SpecParse.splitColon_append _ _ h1, SpecParse.splitColon_append _ _ h2,
              SpecParse.splitColon_append _ _ h3, SpecParse.splitColon_colon_free _ h4]
          simp only [List.filter, List.isEmpty, Bool.not_false, Bool.not_true]
          rw [SpecParse.specLoop_part_step a as _ _ _ (by simp) ha1,
              SpecParse.starLoop_sep1 _ (by simp [hb1]), SpecParse.stripOneColon]
          rw [SpecParse.specLoop_part_step b bs _ _ _ (by simp) hb1,
              SpecParse.starLoop_sep1 _ (by simp [hc1]), SpecParse.stripOneColon]
          rw [SpecParse.specLoop_part_step c cs _ _ _ (by simp) hc1,
              SpecParse.starLoop_sep1 _ (by simp [hd1]), SpecParse.stripOneColon]
          rw [SpecParse.specLoop_last d ds _ _ (by simp) hd1, SpecParse.specLoop_nil_nil]
          simp [SpecParse.joinColon, SpecParse.orStar, SpecParse.star]
        | nil =>
          have hin : SpecParse.joinColon [a :: as, b :: bs, [], d :: ds]
              = (a :: as) ++ ':' :: ((b :: bs) ++ ':' :: (':' :: (d :: ds))) := by
            simp [SpecParse.joinColon]
          rw [SpecParse.probeSpecFromRule, SpecParse.probeSpecContents, hin,
              SpecParse.splitColon_append _ _ h1, SpecParse.splitColon_append _ _ h2,
              SpecParse.splitColon_colon, SpecParse.splitColon_colon_free _ h4]
          simp only [List.filter, List.isEmpty, Bool.not_false, Bool.not_true]
          rw [SpecParse.specLoop_part_step a as _ _ _ (by simp) ha1,
              SpecParse.starLoop_sep1 _ (by simp [hb1]), SpecParse.stripOneColon]
          rw [SpecParse.specLoop_part_step b bs _ _ _ (by simp) hb1,
              SpecParse.starLoop_sep2 _ (by simp [hd1]),
              SpecParse.stripOneColon_no_colon _ (by simp [hd1])]
          rw [SpecParse.specLoop_last d ds _ _ (by simp) hd1, SpecParse.specLoop_nil_nil]
          simp [SpecParse.joinColon, SpecParse.orStar, SpecParse.star]
      | nil =>
        cases c3 with
        | cons c cs =>
          have hc1 : c ≠ ':' := h3 c (by simp)
          have hin : SpecParse.joinColon [a :: as, [], c :: cs, d :: ds]
              = (a :: as) ++ ':' :: (':' :: ((c :: cs) ++ ':' :: (d :: ds))) := by
            simp [SpecParse.joinColon]
          rw [SpecParse.probeSpecFromRule, SpecParse.probeSpecContents, hin,
              SpecParse.splitColon_append _ _ h1, SpecParse.splitColon_colon,
              SpecParse.splitColon_append _ _ h3, SpecParse.splitColon_colon_free _ h4]
          simp only [List.filter, List.isEmpty, Bool.not_false, Bool.not_true]
          rw [SpecParse.specLoop_part_step a as _ _ _ (by simp) ha1,
              SpecParse.starLoop_sep2 _ (by simp [hc1]),
              SpecParse.stripOneColon_no_colon _ (by simp [hc1])]
          rw [SpecParse.specLoop_part_step c cs _ _ _ (by simp) hc1,
              SpecParse.starLoop_sep1 _ (by simp [hd1]), SpecParse.stripOneColon]
          rw [SpecParse.specLoop_last d ds _ _ (by simp) hd1, SpecParse.specLoop_nil_nil]
          simp [SpecParse.joinColon, SpecParse.orStar, SpecParse.star]
        | nil =>
          have hin : SpecParse.joinColon [a :: as, [], [], d :: ds]
              = (a :: as) ++ ':' :: (':' :: (':' :: (d :: ds))) := by
            simp [SpecParse.joinColon]
          rw [SpecParse.probeSpecFromRule, SpecParse.probeSpecContents, hin,
              SpecParse.splitColon_append _ _ h1, SpecParse.splitColon_colon,
              SpecParse.splitColon_colon, SpecParse.splitColon_colon_free _ h4]
          simp only [List.filter, List.isEmpty, Bool.not_false, Bool.not_true]
          rw [SpecParse.specLoop_part_step a as _ _ _ (by simp) ha1,
              SpecParse.starLoop_sep3 _ (by simp [hd1]),
              SpecParse.stripOneColon_no_colon _ (by simp [hd1])]
          rw [SpecParse.specLoop_last d ds _ _ (by simp) hd1, SpecParse.specLoop_nil_nil]
          simp [SpecParse.joinColon, SpecParse.orStar, SpecParse.star]
    | nil =>
      cases c2 with
      | cons b bs =>
        have hb1 : b ≠ ':' := h2 b (by simp)
        cases c3 with
        | cons c cs =>
          have hc1 : c ≠ ':' := h3 c (by simp)
          have hin : SpecParse.joinColon [[], b :: bs, c :: cs, d :: ds]
              = ':' :: ((b :: bs) ++ ':' :: ((c :: cs) ++ ':' :: (d :: ds))) := by
            simp [SpecParse.joinColon]
          rw [SpecParse.probeSpecFromRule, SpecParse.probeSpecContents, hin,
              SpecParse.splitColon_colon, SpecParse.splitColon_append _ _ h2,
              SpecParse.splitColon_append _ _ h3, SpecParse.splitColon_colon_free _ h4]
          simp only [List.filter, List.isEmpty, Bool.not_false, Bool.not_true]
          rw [SpecParse.specLoop_star_step _ _ _ (by simp)]
          rw [SpecParse.specLoop_part_step b bs _ _ _ (by simp) hb1,
              SpecParse.starLoop_sep1 _ (by simp [hc1]), SpecParse.stripOneColon]
          rw [SpecParse.specLoop_part_step c cs _ _ _ (by simp) hc1,
              SpecParse.starLoop_sep1 _ (by simp [hd1]), SpecParse.stripOneColon]
          rw [SpecParse.specLoop_last d ds _ _ (by simp) hd1, SpecParse.specLoop_nil_nil]
          simp [SpecParse.joinColon, SpecParse.orStar, SpecParse.star]
        | nil =>
          have hin : SpecParse.joinColon [[], b :: bs, [], d :: ds]
              = ':' :: ((b :: bs) ++ ':' :: (':' :: (d :: ds))) := by
            simp [SpecParse.joinColon]
          rw [SpecParse.probeSpecFromRule, SpecParse.probeSpecContents, hin,
              SpecParse.splitColon_colon, SpecParse.splitColon_append _ _ h2,
              SpecParse.splitColon_colon, SpecParse.splitColon_colon_free _ h4]
          simp only [List.filter, List.isEmpty, Bool.not_false, Bool.not_true]
          rw [SpecParse.specLoop_star_step _ _ _ (by simp)]
          rw [SpecParse.specLoop_part_step b bs _ _ _ (by simp) hb1,
              SpecParse.starLoop_sep2 _ (by simp [hd1]),
              SpecParse.stripOneColon_no_colon _ (by simp [hd1])]
          rw [SpecParse.specLoop_last d ds _ _ (by simp) hd1, SpecParse.specLoop_nil_nil]
          simp [SpecParse.joinColon, SpecParse.orStar, SpecParse.star]
      | nil =>
        cases c3 with
        | cons c cs =>
          have hc1 : c ≠ ':' := h3 c (by simp)
          have hin : SpecParse.joinColon [[], [], c :: cs, d :: ds]
              = ':' :: (':' :: ((c :: cs) ++ ':' :: (d :: ds))) := by
            simp [SpecParse.joinColon]
          rw [SpecParse.probeSpecFromRule, SpecParse.probeSpecContents, hin,
              SpecParse.splitColon_colon, SpecParse.splitColon_colon,
              SpecParse.splitColon_append _ _ h3, SpecParse.splitColon_colon_free _ h4]
          simp only [List.filter, List.isEmpty, Bool.not_false, Bool.not_true]
          rw [SpecParse.specLoop_star_step _ _ _ (by simp)]
          rw [SpecParse.specLoop_star_step _ _ _ (by simp)]
          rw [SpecParse.specLoop_part_step c cs _ _ _ (by simp) hc1,
              SpecParse.starLoop_sep1 _ (by simp [hd1]), SpecParse.stripOneColon]
          rw [SpecParse.specLoop_last d ds _ _ (by simp) hd1, SpecParse.specLoop_nil_nil]
          simp [SpecParse.joinColon, SpecParse.orStar, SpecParse.star]
        | nil =>
          have hin : SpecParse.joinColon [[], [], [], d :: ds]
              = ':' :: (':' :: (':' :: (d :: ds))) := by
            simp [SpecParse.joinColon]
          rw [SpecParse.probeSpecFromRule, SpecParse.probeSpecContents, hin,
              SpecParse.splitColon_colon, SpecParse.splitColon_colon,
              SpecParse.splitColon_colon, SpecParse.splitColon_colon_free _ h4]
          simp only [List.filter, List.isEmpty, Bool.not_false, Bool.not_true]
          rw [SpecParse.specLoop_star_step _ _ _ (by simp)]
          rw [SpecParse.specLoop_star_step _ _ _ (by simp)]
          rw [SpecParse.specLoop_star_step _ _ _ (by simp)]
          rw [SpecParse.specLoop_last d ds _ _ (by simp) hd1, SpecParse.specLoop_nil_nil]
          simp [SpecParse.joinColon, SpecParse.orStar, SpecParse.star]

/-- Witness for C4 (amended): both halves applied at concrete specs — `END`
expands to `core:*:*:END`, and `wasm::call:after` (a valid spec from the
test suite) fills its missing package with `*`. -/
theorem c4_probe_spec_amended_witness :
    SpecParse.probeSpecFromRule ("END".toList) = "core:*:*:END".toList ∧
    SpecParse.probeSpecFromRule
        (SpecParse.joinColon ["wasm".toList, [], "call".toList, "after".toList])
      = "wasm:*:call:after".toList := by
  constructor
  · have h := c4_probe_spec_amended.1 ("END".toList) (by decide) (by decide)
    simpa using h
  · have h := c4_probe_spec_amended.2 "wasm".toList [] "call".toList "after".toList
      (by decide) (by decide) (by decide) (by decide) (by decide)
    rw [h]
    simp [SpecParse.joinColon, SpecParse.orStar, SpecParse.star]

-- ===========================================================================
-- §5  The behavior tree builder (src/src/behavior/tree.rs)
-- ===========================================================================

namespace BTree

/-- `DecoratorType` (src/src/behavior/tree.rs lines 385-405). -/
inductive DecoratorType where
  | IsInstr (instr_names : List String)
  | IsProbeType (probe_type : String)
  | HasParams
  | PredIs (val : Bool)
  | ForEachProbe (target : String)
  | ForFirstProbe (target : String)
deriving Repr, DecidableEq

/-- `ActionType` (src/src/behavior/tree.rs lines 407-425). -/
inductive ActionType where
  | EnterScope (scope_name : String)
  | ExitScope
  | Define (context : String) (var_name : String)
  | EmitPred
  | FoldPred
  | Reset
  | SaveParams
  | EmitParams
  | EmitBody
  | EmitOrig
  | ForceSuccess
deriving Repr, DecidableEq

/-- `ParamActionType` (src/src/behavior/tree.rs lines 427-438); `cond`,
`conseq` and `alt` are node indices. -/
inductive ParamActionType where
  | EmitIf (cond : Nat) (conseq : Nat)
  | EmitIfElse (cond : Nat) (conseq : Nat) (alt : Nat)
deriving Repr, DecidableEq

/-- `Node` (src/src/behavior/tree.rs lines 350-383); all references are
`usize` indices into the flat node vector. -/
inductive Node where
  | Root (id : Nat) (child : Nat)
  | Sequence (id : Nat) (parent : Nat) (children : List Nat)
  | Decorator (id : Nat) (ty : DecoratorType) (parent : Nat) (child : Nat)
  | Fallback (id : Nat) (parent : Nat) (children : List Nat)
  | ParameterizedAction (id : Nat) (parent : Nat) (ty : ParamActionType) (children : List Nat)
  | Action (id : Nat) (parent : Nat) (ty : ActionType)
deriving Repr, DecidableEq

/-- The node's `id` field. -/
def idOf : Node → Nat
  | Node.Root id _ => id
  | Node.Sequence id _ _ => id
  | Node.Decorator id _ _ _ => id
  | Node.Fallback id _ _ => id
  | Node.ParameterizedAction id _ _ _ => id
  | Node.Action id _ _ => id

/-- The node's `parent` field; `Root` has none and is mapped to 0 (itself). -/
def parentOf : Node → Nat
  | Node.Root _ _ => 0
  | Node.Sequence _ p _ => p
  | Node.Decorator _ _ p _ => p
  | Node.Fallback _ p _ => p
  | Node.ParameterizedAction _ p _ _ => p
  | Node.Action _ p _ => p

/-- Every child index stored in the node's `child` slot or `children` vector
(the `cond/conseq/alt` indices inside a `ParamActionType` are bookkeeping of
entries already in `children` and are not separate structural slots). -/
def childIdxs : Node → List Nat
  | Node.Root _ c => [c]
  | Node.Sequence _ _ cs => cs
  | Node.Decorator _ _ _ c => [c]
  | Node.Fallback _ _ cs => cs
  | Node.ParameterizedAction _ _ _ cs => cs
  | Node.Action _ _ _ => []

/-- The `children` vector, for the variants that have one. -/
def childVec : Node → List Nat
  | Node.Sequence _ _ cs => cs
  | Node.Fallback _ _ cs => cs
  | Node.ParameterizedAction _ _ _ cs => cs
  | _ => []

/-- Does the node carry a `children` vector (rather than a single slot)? -/
def hasChildVec : Node → Prop
  | Node.Sequence _ _ _ => True
  | Node.Fallback _ _ _ => True
  | Node.ParameterizedAction _ _ _ _ => True
  | _ => False

/-- `BehaviorTree` (src/src/behavior/tree.rs lines 3-7). -/
structure BehaviorTree where
  nodes : List Node
  curr : Nat
deriving Repr, DecidableEq

/-- `BehaviorTree::new` (lines 9-17). -/
def BehaviorTree.new : BehaviorTree :=
  { nodes := [Node.Root 0 0], curr := 0 }

/-- `BehaviorTree::reset` (lines 19-21). -/
def reset (t : BehaviorTree) : BehaviorTree :=
  { t with curr := 0 }

/-- `add_action_as_param` (lines 141-169): writes child id `id` into slot
`idx` of the parameterized action's type; out-of-range `idx` only logs. -/
def addActionAsParam (ty : ParamActionType) (idx : Nat) (id : Nat) : ParamActionType :=
  match ty with
  | ParamActionType.EmitIf cond conseq =>
    if idx = 0 then ParamActionType.EmitIf id conseq
    else if idx = 1 then ParamActionType.EmitIf cond id
    else ParamActionType.EmitIf cond conseq
  | ParamActionType.EmitIfElse cond conseq alt =>
    if idx = 0 then ParamActionType.EmitIfElse id conseq alt
    else if idx = 1 then ParamActionType.EmitIfElse cond id alt
    else if idx = 2 then ParamActionType.EmitIfElse cond conseq id
    else ParamActionType.EmitIfElse cond conseq alt

/-- `BehaviorTree::put_child` (lines 280-318): computes `new_id = nodes.len()`,
adds it to the current node's child slot / children vector (for a
`ParameterizedAction` also into the `cond/conseq/alt` slot via
`add_action_as_param`), and pushes the node; when the current node cannot take
a child (`Action`, or an invalid cursor) nothing happens and `None` is
returned. -/
def putChild (t : BehaviorTree) (node : Node) : Option Nat × BehaviorTree :=
  let newId := t.nodes.length
  match t.nodes[t.curr]? with
  | some (Node.Root id _) =>
    (some newId, { t with nodes := t.nodes.set t.curr (Node.Root id newId) ++ [node] })
  | some (Node.Sequence id p cs) =>
    (some newId,
      { t with nodes := t.nodes.set t.curr (Node.Sequence id p (cs ++ [newId])) ++ [node] })
  | some (Node.Decorator id ty p _) =>
    (some newId,
      { t with nodes := t.nodes.set t.curr (Node.Decorator id ty p newId) ++ [node] })
  | some (Node.Fallback id p cs) =>
    (some newId,
      { t with nodes := t.nodes.set t.curr (Node.Fallback id p (cs ++ [newId])) ++ [node] })
  | some (Node.ParameterizedAction id p ty cs) =>
    let pn2 := Node.ParameterizedAction id p (addActionAsParam ty cs.length newId) (cs ++ [newId])
    (some newId, { t with nodes := t.nodes.set t.curr pn2 ++ [node] })
  | some (Node.Action _ _ _) => (none, t)
  | none => (none, t)

/-- `BehaviorTree::put_child_and_enter` (lines 320-325): `put_child`, then
move `curr` to the new node when one was assigned.  (The Rust function always
returns `false`.) -/
def putChildAndEnter (t : BehaviorTree) (node : Node) : Bool × BehaviorTree :=
  match putChild t node with
  | (some id, t2) => (false, { t2 with curr := id })
  | (none, t2) => (false, t2)

/-- `BehaviorTree::put_floating_child` (lines 328-332): pushes the node
without registering it with any parent. -/
def putFloatingChild (t : BehaviorTree) (node : Node) : Nat × BehaviorTree :=
  (t.nodes.length, { t with nodes := t.nodes ++ [node] })

/-- `BehaviorTree::sequence` (lines 47-55). -/
def sequence (t : BehaviorTree) : BehaviorTree :=
  (putChildAndEnter t (Node.Sequence t.nodes.length t.curr [])).2

/-- `BehaviorTree::fallback` (lines 69-77). -/
def fallback (t : BehaviorTree) : BehaviorTree :=
  (putChildAndEnter t (Node.Fallback t.nodes.length t.curr [])).2

/-- `BehaviorTree::decorator` (lines 91-100); the fresh node's `child` slot
is initialized to 0. -/
def decorator (t : BehaviorTree) (ty : DecoratorType) : BehaviorTree :=
  (putChildAndEnter t (Node.Decorator t.nodes.length ty t.curr 0)).2

/-- `BehaviorTree::parameterized_action` (lines 114-123). -/
def parameterizedAction (t : BehaviorTree) (ty : ParamActionType) : BehaviorTree :=
  (putChildAndEnter t (Node.ParameterizedAction t.nodes.length t.curr ty [])).2

/-- The action constructors `define`, `emit_body`, `emit_params`, `emit_orig`,
`emit_pred`, `enter_scope`, `exit_scope`, `fold_pred`, `force_success`,
`save_params` (lines 171-274): each builds
`Node::Action { id: nodes.len(), parent: curr, ty }` and calls `put_child`. -/
def putAction (t : BehaviorTree) (ty : ActionType) : BehaviorTree :=
  (putChild t (Node.Action t.nodes.length t.curr ty)).2

/-- `BehaviorTree::exit_sequence` (lines 57-67): pops `curr` to the parent
when the current node is a `Sequence`; otherwise only logs. -/
def exitSequence (t : BehaviorTree) : BehaviorTree :=
  match t.nodes[t.curr]? with
  | some (Node.Sequence _ p _) => { t with curr := p }
  | _ => t

/-- `BehaviorTree::exit_fallback` (lines 79-89). -/
def exitFallback (t : BehaviorTree) : BehaviorTree :=
  match t.nodes[t.curr]? with
  | some (Node.Fallback _ p _) => { t with curr := p }
  | _ => t

/-- `BehaviorTree::exit_decorator` (lines 102-112). -/
def exitDecorator (t : BehaviorTree) : BehaviorTree :=
  match t.nodes[t.curr]? with
  | some (Node.Decorator _ _ p _) => { t with curr := p }
  | _ => t

/-- `BehaviorTree::exit_parameterized_action` (lines 125-135). -/
def exitParameterizedAction (t : BehaviorTree) : BehaviorTree :=
  match t.nodes[t.curr]? with
  | some (Node.ParameterizedAction _ p _ _) => { t with curr := p }
  | _ => t

/-- `BehaviorTree::exit_child` (lines 334-347). -/
def exitChild (t : BehaviorTree) : BehaviorTree :=
  match t.nodes[t.curr]? with
  | some (Node.Sequence _ p _) => { t with curr := p }
  | some (Node.Fallback _ p _) => { t with curr := p }
  | some (Node.Decorator _ _ p _) => { t with curr := p }
  | _ => t

/-- The invariant asserted by claim C5, as a decidable check: every non-root
node's `parent` indexes an existing node and its own index appears among the
parent's recorded child indices (children vector or child slot). -/
def claimInvB (t : BehaviorTree) : Bool :=
  (List.range t.nodes.length).all fun i =>
    if i == 0 then true
    else
      match t.nodes[i]? with
      | some n =>
        decide (parentOf n < t.nodes.length) &&
        (match t.nodes[parentOf n]? with
         | some pn => (childIdxs pn).contains i
         | none => false)
      | none => true

end BTree

namespace BTree

structure TreeInv (t : BehaviorTree) : Prop where
  nonempty : 0 < t.nodes.length
  currLt : t.curr < t.nodes.length
  ids : ∀ (i : Nat) (n : Node), t.nodes[i]? = some n → idOf n = i
  parents : ∀ (i : Nat) (n : Node), t.nodes[i]? = some n → parentOf n < t.nodes.length
  childs : ∀ (i : Nat) (n : Node), t.nodes[i]? = some n → ∀ c ∈ childIdxs n, c < t.nodes.length
  member : ∀ (i : Nat) (n pn : Node), t.nodes[i]? = some n → t.nodes[parentOf n]? = some pn →
    hasChildVec pn → i ∈ childVec pn

theorem inv_insert (t : BehaviorTree) (pn pn2 n : Node) (hInv : TreeInv t)
    (hget : t.nodes[t.curr]? = some pn)
    (hid : idOf pn2 = idOf pn) (hpar : parentOf pn2 = parentOf pn)
    (hcsub : ∀ c ∈ childIdxs pn2, c ∈ childIdxs pn ∨ c = t.nodes.length)
    (hvecmono : ∀ x ∈ childVec pn, x ∈ childVec pn2)
    (hvecpres : hasChildVec pn2 → hasChildVec pn)
    (hnew : hasChildVec pn2 → t.nodes.length ∈ childVec pn2)
    (hp : parentOf n = t.curr) (hi : idOf n = t.nodes.length)
    (hc : ∀ c ∈ childIdxs n, c < t.nodes.length) :
    TreeInv { nodes := t.nodes.set t.curr pn2 ++ [n], curr := t.curr } := by
  have hcurrLt : t.curr < t.nodes.length := by
    by_contra hcon
    rw [List.getElem?_eq_none (by omega)] at hget
    exact Option.noConfusion hget
  have hlen : (t.nodes.set t.curr pn2 ++ [n]).length = t.nodes.length + 1 := by
    simp
  have hlt : ∀ j, j < t.nodes.length →
      (t.nodes.set t.curr pn2 ++ [n])[j]? =
        (if j = t.curr then some pn2 else t.nodes[j]?) := by
    intro j hj
    rw [List.getElem?_append_left (by simpa using hj)]
    by_cases hjc : j = t.curr
    · subst hjc
      simp [List.getElem?_set_self (by simpa using hj)]
    · simp [List.getElem?_set_ne (fun heq => hjc heq.symm), if_neg hjc]
  have hat : (t.nodes.set t.curr pn2 ++ [n])[t.nodes.length]? = some n := by
    have hl2 : (t.nodes.set t.curr pn2).length = t.nodes.length := by simp
    rw [show t.nodes.length = (t.nodes.set t.curr pn2).length from hl2.symm]
    exact List.getElem?_concat_length _ _
  have hgt : ∀ j, t.nodes.length + 1 ≤ j →
      (t.nodes.set t.curr pn2 ++ [n])[j]? = none := by
    intro j hj
    exact List.getElem?_eq_none (by simpa [hlen] using hj)
  -- classify an index of the new node list
  have hcases : ∀ i m, (t.nodes.set t.curr pn2 ++ [n])[i]? = some m →
      (i < t.nodes.length ∧ ((i = t.curr ∧ m = pn2) ∨ (i ≠ t.curr ∧ t.nodes[i]? = some m)))
      ∨ (i = t.nodes.length ∧ m = n) := by
    intro i m hm
    rcases Nat.lt_trichotomy i t.nodes.length with hi2 | hi2 | hi2
    · left
      refine ⟨hi2, ?_⟩
      rw [hlt i hi2] at hm
      by_cases hic : i = t.curr
      · subst hic
        simp at hm
        exact Or.inl ⟨rfl, hm.symm⟩
      · rw [if_neg hic] at hm
        exact Or.inr ⟨hic, hm⟩
    · right
      subst hi2
      rw [hat] at hm
      exact ⟨rfl, (Option.some_inj.mp hm).symm⟩
    · exfalso
      rw [hgt i (by omega)] at hm
      exact Option.noConfusion hm
  have hidpn : idOf pn = t.curr := hInv.ids _ _ hget
  constructor
  · simp
  · simp; omega
  · -- ids
    intro i m hm
    rcases hcases i m hm with ⟨hi2, ⟨hic, rfl⟩ | ⟨hic, hold⟩⟩ | ⟨rfl, rfl⟩
    · rw [hid, hidpn, hic]
    · exact hInv.ids _ _ hold
    · exact hi
  · -- parents
    intro i m hm
    rw [hlen]
    rcases hcases i m hm with ⟨hi2, ⟨hic, rfl⟩ | ⟨hic, hold⟩⟩ | ⟨rfl, rfl⟩
    · have := hInv.parents _ _ hget
      rw [hpar]
      omega
    · have := hInv.parents _ _ hold
      omega
    · rw [hp]; omega
  · -- childs
    intro i m hm c hcmem
    rw [hlen]
    rcases hcases i m hm with ⟨hi2, ⟨hic, rfl⟩ | ⟨hic, hold⟩⟩ | ⟨rfl, rfl⟩
    · rcases hcsub c hcmem with hin | rfl
      · have := hInv.childs _ _ hget c hin
        omega
      · omega
    · have := hInv.childs _ _ hold c hcmem
      omega
    · have := hc c hcmem
      omega
  · -- member
    intro i m pm hm hpm hvec
    rcases hcases i m hm with ⟨hi2, ⟨hic, hmeq⟩ | ⟨hic, hold⟩⟩ | ⟨hieq, hmeq⟩
    · -- i = curr and the node is the rewritten current node pn2
      rw [hmeq, hpar] at hpm
      have hplt : parentOf pn < t.nodes.length := hInv.parents _ _ hget
      rw [hlt _ hplt] at hpm
      by_cases hpc : parentOf pn = t.curr
      · rw [if_pos hpc] at hpm
        have hpm2 : pm = pn2 := by simpa using hpm.symm
        rw [hpm2] at hvec ⊢
        have hvp : hasChildVec pn := hvecpres hvec
        have hmem0 : i ∈ childVec pn := by
          refine hInv.member i pn pn ?_ ?_ hvp
          · rw [hic]; exact hget
          · rw [hpc]; exact hget
        exact hvecmono _ hmem0
      · rw [if_neg hpc] at hpm
        exact hInv.member i pn pm (by rw [hic]; exact hget) hpm hvec
    · -- i is an untouched old node
      have hplt : parentOf m < t.nodes.length := hInv.parents _ _ hold
      rw [hlt _ hplt] at hpm
      by_cases hpc : parentOf m = t.curr
      · rw [if_pos hpc] at hpm
        have hpm2 : pm = pn2 := by simpa using hpm.symm
        rw [hpm2] at hvec ⊢
        have hvp : hasChildVec pn := hvecpres hvec
        have hmem0 : i ∈ childVec pn := by
          refine hInv.member i m pn hold ?_ hvp
          rw [hpc]; exact hget
        exact hvecmono _ hmem0
      · rw [if_neg hpc] at hpm
        exact hInv.member i m pm hold hpm hvec
    · -- the freshly pushed node
      subst hieq
      rw [hmeq, hp] at hpm
      rw [hlt _ hcurrLt, if_pos rfl] at hpm
      have hpm2 : pm = pn2 := by simpa using hpm.symm
      rw [hpm2] at hvec ⊢
      exact hnew hvec

end BTree

namespace BTree

theorem new_inv : TreeInv BehaviorTree.new := by
  refine ⟨by decide, by decide, ?_, ?_, ?_, ?_⟩
  · intro i n h
    cases i with
    | zero =>
      simp [BehaviorTree.new] at h
      rw [← h]
      rfl
    | succ k => simp [BehaviorTree.new] at h
  · intro i n h
    cases i with
    | zero =>
      simp [BehaviorTree.new] at h
      rw [← h]
      decide
    | succ k => simp [BehaviorTree.new] at h
  · intro i n h c hc
    cases i with
    | zero =>
      simp [BehaviorTree.new] at h
      rw [← h] at hc
      simp [childIdxs] at hc
      simp [hc, BehaviorTree.new]
    | succ k => simp [BehaviorTree.new] at h
  · intro i n pn h hp hv
    cases i with
    | zero =>
      simp [BehaviorTree.new] at h
      rw [← h] at hp
      simp [parentOf, BehaviorTree.new] at hp
      rw [← hp] at hv
      simp [hasChildVec] at hv
    | succ k => simp [BehaviorTree.new] at h

theorem putChild_inv (t : BehaviorTree) (n : Node) (hInv : TreeInv t)
    (hp : parentOf n = t.curr) (hi : idOf n = t.nodes.length)
    (hc : ∀ c ∈ childIdxs n, c < t.nodes.length) :
    TreeInv (putChild t n).2 ∧
    (∀ i, (putChild t n).1 = some i → i < (putChild t n).2.nodes.length) := by
  cases hcur : t.nodes[t.curr]? with
  | none => simp [putChild, hcur]; exact hInv
  | some pn =>
    cases pn with
    | Root id c =>
      refine ⟨?_, ?_⟩
      · have h2 := inv_insert t _ (Node.Root id t.nodes.length) n hInv hcur rfl rfl
          (by intro c2 hc2; right; simpa [childIdxs] using hc2)
          (by intro x hx; simpa [childVec] using hx)
          (by intro hv; simpa [hasChildVec] using hv)
          (by intro hv; simp [hasChildVec] at hv)
          hp hi hc
        simpa [putChild, hcur] using h2
      · intro i hsome
        simp [putChild, hcur] at hsome ⊢
        omega
    | Sequence id p cs =>
      refine ⟨?_, ?_⟩
      · have h2 := inv_insert t _ (Node.Sequence id p (cs ++ [t.nodes.length])) n hInv hcur rfl rfl
          (by intro c2 hc2; simpa [childIdxs] using hc2)
          (by intro x hx; simp [childVec] at hx ⊢; exact Or.inl hx)
          (by intro _; simp [hasChildVec])
          (by intro _; simp [childVec])
          hp hi hc
        simpa [putChild, hcur] using h2
      · intro i hsome
        simp [putChild, hcur] at hsome ⊢
        omega
    | Decorator id ty p c =>
      refine ⟨?_, ?_⟩
      · have h2 := inv_insert t _ (Node.Decorator id ty p t.nodes.length) n hInv hcur rfl rfl
          (by intro c2 hc2; right; simpa [childIdxs] using hc2)
          (by intro x hx; simpa [childVec] using hx)
          (by intro hv; simpa [hasChildVec] using hv)
          (by intro hv; simp [hasChildVec] at hv)
          hp hi hc
        simpa [putChild, hcur] using h2
      · intro i hsome
        simp [putChild, hcur] at hsome ⊢
        omega
    | Fallback id p cs =>
      refine ⟨?_, ?_⟩
      · have h2 := inv_insert t _ (Node.Fallback id p (cs ++ [t.nodes.length])) n hInv hcur rfl rfl
          (by intro c2 hc2; simpa [childIdxs] using hc2)
          (by intro x hx; simp [childVec] at hx ⊢; exact Or.inl hx)
          (by intro _; simp [hasChildVec])
          (by intro _; simp [childVec])
          hp hi hc
        simpa [putChild, hcur] using h2
      · intro i hsome
        simp [putChild, hcur] at hsome ⊢
        omega
    | ParameterizedAction id p ty cs =>
      refine ⟨?_, ?_⟩
      · have h2 := inv_insert t _
          (Node.ParameterizedAction id p (addActionAsParam ty cs.length t.nodes.length)
            (cs ++ [t.nodes.length])) n hInv hcur rfl rfl
          (by intro c2 hc2; simpa [childIdxs] using hc2)
          (by intro x hx; simp [childVec] at hx ⊢; exact Or.inl hx)
          (by intro _; simp [hasChildVec])
          (by intro _; simp [childVec])
          hp hi hc
        simpa [putChild, hcur] using h2
      · intro i hsome
        simp [putChild, hcur] at hsome ⊢
        omega
    | Action id p ty =>
      simp [putChild, hcur]
      exact hInv


theorem inv_withCurr (t : BehaviorTree) (c : Nat) (h : TreeInv t)
    (hc : c < t.nodes.length) : TreeInv { t with curr := c } :=
  ⟨h.nonempty, hc, h.ids, h.parents, h.childs, h.member⟩

theorem putChildAndEnter_inv (t : BehaviorTree) (n : Node) (hInv : TreeInv t)
    (hp : parentOf n = t.curr) (hi : idOf n = t.nodes.length)
    (hc : ∀ c ∈ childIdxs n, c < t.nodes.length) :
    TreeInv (putChildAndEnter t n).2 := by
  have h2 := putChild_inv t n hInv hp hi hc
  unfold putChildAndEnter
  cases hres : putChild t n with
  | mk o t2 =>
    cases o with
    | none => simpa [hres] using h2.1
    | some id =>
      simp only
      have hlt : id < t2.nodes.length := by
        have := h2.2 id
        rw [hres] at this
        simpa [hres] using this rfl
      have hi2 : TreeInv t2 := by rw [hres] at h2; exact h2.1
      exact inv_withCurr t2 id hi2 hlt

theorem sequence_inv (t : BehaviorTree) (h : TreeInv t) : TreeInv (sequence t) := by
  unfold sequence
  exact putChildAndEnter_inv t _ h rfl rfl (by intro c hc; simp [childIdxs] at hc)

theorem fallback_inv (t : BehaviorTree) (h : TreeInv t) : TreeInv (fallback t) := by
  unfold fallback
  exact putChildAndEnter_inv t _ h rfl rfl (by intro c hc; simp [childIdxs] at hc)

theorem decorator_inv (t : BehaviorTree) (ty : DecoratorType) (h : TreeInv t) :
    TreeInv (decorator t ty) := by
  unfold decorator
  exact putChildAndEnter_inv t _ h rfl rfl
    (by intro c hc; simp [childIdxs] at hc; rw [hc]; exact h.nonempty)

theorem parameterizedAction_inv (t : BehaviorTree) (ty : ParamActionType) (h : TreeInv t) :
    TreeInv (parameterizedAction t ty) := by
  unfold parameterizedAction
  exact putChildAndEnter_inv t _ h rfl rfl (by intro c hc; simp [childIdxs] at hc)

theorem putAction_inv (t : BehaviorTree) (ty : ActionType) (h : TreeInv t) :
    TreeInv (putAction t ty) := by
  unfold putAction
  exact (putChild_inv t (Node.Action t.nodes.length t.curr ty) h rfl rfl
    (by intro c hc; simp [childIdxs] at hc)).1

theorem exitSequence_inv (t : BehaviorTree) (h : TreeInv t) : TreeInv (exitSequence t) := by
  unfold exitSequence
  cases hcur : t.nodes[t.curr]? with
  | none => exact h
  | some n =>
    cases n with
    | Sequence id p cs =>
      have := h.parents _ _ hcur
      exact inv_withCurr t p h (by simpa [parentOf] using this)
    | Root id c => exact h
    | Decorator id ty p c => exact h
    | Fallback id p cs => exact h
    | ParameterizedAction id p ty cs => exact h
    | Action id p ty => exact h

theorem exitFallback_inv (t : BehaviorTree) (h : TreeInv t) : TreeInv (exitFallback t) := by
  unfold exitFallback
  cases hcur : t.nodes[t.curr]? with
  | none => exact h
  | some n =>
    cases n with
    | Fallback id p cs =>
      have := h.parents _ _ hcur
      exact inv_withCurr t p h (by simpa [parentOf] using this)
    | Root id c => exact h
    | Decorator id ty p c => exact h
    | Sequence id p cs => exact h
    | ParameterizedAction id p ty cs => exact h
    | Action id p ty => exact h

theorem exitDecorator_inv (t : BehaviorTree) (h : TreeInv t) : TreeInv (exitDecorator t) := by
  unfold exitDecorator
  cases hcur : t.nodes[t.curr]? with
  | none => exact h
  | some n =>
    cases n with
    | Decorator id ty p c =>
      have := h.parents _ _ hcur
      exact inv_withCurr t p h (by simpa [parentOf] using this)
    | Root id c => exact h
    | Sequence id p cs => exact h
    | Fallback id p cs => exact h
    | ParameterizedAction id p ty cs => exact h
    | Action id p ty => exact h

theorem exitParameterizedAction_inv (t : BehaviorTree) (h : TreeInv t) :
    TreeInv (exitParameterizedAction t) := by
  unfold exitParameterizedAction
  cases hcur : t.nodes[t.curr]? with
  | none => exact h
  | some n =>
    cases n with
    | ParameterizedAction id p ty cs =>
      have := h.parents _ _ hcur
      exact inv_withCurr t p h (by simpa [parentOf] using this)
    | Root id c => exact h
    | Sequence id p cs => exact h
    | Fallback id p cs => exact h
    | Decorator id ty p c => exact h
    | Action id p ty => exact h

theorem exitChild_inv (t : BehaviorTree) (h : TreeInv t) : TreeInv (exitChild t) := by
  unfold exitChild
  cases hcur : t.nodes[t.curr]? with
  | none => exact h
  | some n =>
    cases n with
    | Sequence id p cs =>
      have := h.parents _ _ hcur
      exact inv_withCurr t p h (by simpa [parentOf] using this)
    | Fallback id p cs =>
      have := h.parents _ _ hcur
      exact inv_withCurr t p h (by simpa [parentOf] using this)
    | Decorator id ty p c =>
      have := h.parents _ _ hcur
      exact inv_withCurr t p h (by simpa [parentOf] using this)
    | Root id c => exact h
    | ParameterizedAction id p ty cs => exact h
    | Action id p ty => exact h

theorem reset_inv (t : BehaviorTree) (h : TreeInv t) : TreeInv (reset t) :=
  inv_withCurr t 0 h h.nonempty

/-- Trees reachable from `BehaviorTree::new` by the builder operations
excluding `put_floating_child`; the generic `put_child` and
`put_child_and_enter` steps carry the conditions every in-repository call
site satisfies (the inserted node's `parent` is the current node, its `id`
is the next index, and its child slots reference existing nodes). -/
inductive Reached : BehaviorTree → Prop where
  | base : Reached BehaviorTree.new
  | seq {t : BehaviorTree} : Reached t → Reached (sequence t)
  | fb {t : BehaviorTree} : Reached t → Reached (fallback t)
  | dec {t : BehaviorTree} (ty : DecoratorType) : Reached t → Reached (decorator t ty)
  | pa {t : BehaviorTree} (ty : ParamActionType) : Reached t → Reached (parameterizedAction t ty)
  | act {t : BehaviorTree} (ty : ActionType) : Reached t → Reached (putAction t ty)
  | exSeq {t : BehaviorTree} : Reached t → Reached (exitSequence t)
  | exFb {t : BehaviorTree} : Reached t → Reached (exitFallback t)
  | exDec {t : BehaviorTree} : Reached t → Reached (exitDecorator t)
  | exPa {t : BehaviorTree} : Reached t → Reached (exitParameterizedAction t)
  | exChild {t : BehaviorTree} : Reached t → Reached (exitChild t)
  | res {t : BehaviorTree} : Reached t → Reached (reset t)
  | put {t : BehaviorTree} (n : Node) : Reached t → parentOf n = t.curr →
      idOf n = t.nodes.length → (∀ c ∈ childIdxs n, c < t.nodes.length) →
      Reached (putChild t n).2
  | putEnter {t : BehaviorTree} (n : Node) : Reached t → parentOf n = t.curr →
      idOf n = t.nodes.length → (∀ c ∈ childIdxs n, c < t.nodes.length) →
      Reached (putChildAndEnter t n).2

end BTree

/-- C5: the claim includes `put_floating_child` among the builder operations
preserving the parent/child-slot invariant, but `put_floating_child` pushes a
node that no parent references: starting from `BehaviorTree::new`, one
`put_floating_child` of an `Action` node with `parent = curr = 0` (the shape
every call site uses) yields a tree in which node 1's parent is the root yet
the root's child slot still holds 0 — the claimed invariant fails. -/
theorem c5_tree_counterexample :
    BTree.claimInvB
      (BTree.putFloatingChild BTree.BehaviorTree.new
        (BTree.Node.Action 1 0 BTree.ActionType.ExitScope)).2 = false := by
  decide

/-- C5 (amended): in every tree reachable from `BehaviorTree::new` by the
builder operations excluding `put_floating_child` (with `put_child` /
`put_child_and_enter` invoked, as at every call site, on a node whose
`parent` is the current node, whose `id` is the next index and whose child
slots reference existing nodes), every node's `parent` and stored child
indices reference existing nodes, node ids equal their indices, and a node
whose parent is a `Sequence`, `Fallback` or `ParameterizedAction` appears in
that parent's `children` vector.  For `Root` and `Decorator` parents only a
weaker property holds — the id assigned by `put_child` is written into the
current node's child slot at insertion (second conjunct) but a later
insertion under the same parent overwrites the single slot, orphaning the
earlier child. -/
theorem c5_tree_invariant_amended :
    (∀ t : BTree.BehaviorTree, BTree.Reached t → BTree.TreeInv t) ∧
    (∀ (t : BTree.BehaviorTree) (n : BTree.Node) (i : Nat),
      (BTree.putChild t n).1 = some i →
      ∃ pn2 : BTree.Node, (BTree.putChild t n).2.nodes[t.curr]? = some pn2 ∧
        i ∈ BTree.childIdxs pn2) := by
  constructor
  · intro t h
    induction h with
    | base => exact BTree.new_inv
    | seq _ ih => exact BTree.sequence_inv _ ih
    | fb _ ih => exact BTree.fallback_inv _ ih
    | dec ty _ ih => exact BTree.decorator_inv _ ty ih
    | pa ty _ ih => exact BTree.parameterizedAction_inv _ ty ih
    | act ty _ ih => exact BTree.putAction_inv _ ty ih
    | exSeq _ ih => exact BTree.exitSequence_inv _ ih
    | exFb _ ih => exact BTree.exitFallback_inv _ ih
    | exDec _ ih => exact BTree.exitDecorator_inv _ ih
    | exPa _ ih => exact BTree.exitParameterizedAction_inv _ ih
    | exChild _ ih => exact BTree.exitChild_inv _ ih
    | res _ ih => exact BTree.reset_inv _ ih
    | put n _ hp hi hc ih => exact (BTree.putChild_inv _ n ih hp hi hc).1
    | putEnter n _ hp hi hc ih => exact BTree.putChildAndEnter_inv _ n ih hp hi hc
  · intro t n i hsome
    have hcl : t.curr < t.nodes.length := by
      by_contra hcon
      have : t.nodes[t.curr]? = none := List.getElem?_eq_none (by omega)
      simp [BTree.putChild, this] at hsome
    have hset : ∀ (pn2 : BTree.Node),
        (t.nodes.set t.curr pn2 ++ [n])[t.curr]? = some pn2 := by
      intro pn2
      rw [List.getElem?_append_left (by simpa using hcl)]
      simp [List.getElem?_set_self (by simpa using hcl)]
    cases hcur : t.nodes[t.curr]? with
    | none => simp [BTree.putChild, hcur] at hsome
    | some pn =>
      cases pn with
      | Root id c =>
        simp [BTree.putChild, hcur] at hsome ⊢
        refine ⟨BTree.Node.Root id t.nodes.length, hset _, ?_⟩
        simp [BTree.childIdxs, hsome]
      | Sequence id p cs =>
        simp [BTree.putChild, hcur] at hsome ⊢
        refine ⟨BTree.Node.Sequence id p (cs ++ [t.nodes.length]), hset _, ?_⟩
        simp [BTree.childIdxs, hsome]
      | Decorator id ty p c =>
        simp [BTree.putChild, hcur] at hsome ⊢
        refine ⟨BTree.Node.Decorator id ty p t.nodes.length, hset _, ?_⟩
        simp [BTree.childIdxs, hsome]
      | Fallback id p cs =>
        simp [BTree.putChild, hcur] at hsome ⊢
        refine ⟨BTree.Node.Fallback id p (cs ++ [t.nodes.length]), hset _, ?_⟩
        simp [BTree.childIdxs, hsome]
      | ParameterizedAction id p ty cs =>
        simp [BTree.putChild, hcur] at hsome ⊢
        refine ⟨BTree.Node.ParameterizedAction id p
          (BTree.addActionAsParam ty cs.length t.nodes.length) (cs ++ [t.nodes.length]),
          hset _, ?_⟩
        simp [BTree.childIdxs, hsome]
      | Action id p ty =>
        simp [BTree.putChild, hcur] at hsome

/-- Witness for C5 (amended): the invariant evaluated on the concrete tree
`new |> sequence |> enter_scope("s")`, and the slot-write property of
`put_child` on the fresh tree. -/
theorem c5_tree_invariant_amended_witness :
    BTree.TreeInv
      (BTree.putAction (BTree.sequence BTree.BehaviorTree.new)
        (BTree.ActionType.EnterScope "s")) ∧
    (∃ pn2 : BTree.Node,
      (BTree.putChild BTree.BehaviorTree.new
          (BTree.Node.Action 1 0 BTree.ActionType.ExitScope)).2.nodes[
        BTree.BehaviorTree.new.curr]? = some pn2 ∧
      1 ∈ BTree.childIdxs pn2) := by
  constructor
  · exact c5_tree_invariant_amended.1 _
      (BTree.Reached.act _ (BTree.Reached.seq BTree.Reached.base))
  · exact c5_tree_invariant_amended.2 BTree.BehaviorTree.new
      (BTree.Node.Action 1 0 BTree.ActionType.ExitScope) 1 (by decide)

-- ===========================================================================
-- §6  AST types shared by the instrumentation driver and the spec matcher
--     (src/src/parser/types.rs)
-- ===========================================================================

namespace Ast

/-- `pest::error::LineColLocation`: a point or a span of (line, col) pairs. -/
inductive LineColLocation where
  | Pos (p : Nat × Nat)
  | Span (p0 : Nat × Nat) (p1 : Nat × Nat)
deriving Repr, DecidableEq

/-- `Location` (src/src/parser/types.rs lines 47-52). -/
structure Location where
  line_col : LineColLocation
  path : Option String
deriving Repr, DecidableEq

/-- `UnOp` (src/src/parser/types.rs lines 1219-1222). -/
inductive UnOpKind where
  | Not
deriving Repr, DecidableEq

/-- `BinOp` (src/src/parser/types.rs lines 1224-1246). -/
inductive BinOpKind where
  | And | Or | EQ | NE | GE | GT | LE | LT
  | Add | Subtract | Multiply | Divide | Modulo
deriving Repr, DecidableEq

mutual

/-- `Value` (src/src/parser/types.rs lines 180-204).  A `Str` optionally
carries the `(DataId, address, length)` triple assigned by the emitter
(`DataId` modelled as `Nat`). -/
inductive Value where
  | Integer (ty : Whamm.DataType) (val : Int)
  | Str (ty : Whamm.DataType) (val : String) (addr : Option (Nat × Nat × Nat))
  | Tuple (ty : Whamm.DataType) (vals : List Expr)
  | Boolean (ty : Whamm.DataType) (val : Bool)

/-- `Expr` (src/src/parser/types.rs lines 260-297).  The optional source
`loc` fields are omitted: none of the embedded operations consult them. -/
inductive Expr where
  | UnOp (op : UnOpKind) (expr : Expr)
  | Ternary (cond : Expr) (conseq : Expr) (alt : Expr)
  | BinOp (lhs : Expr) (op : BinOpKind) (rhs : Expr)
  | Call (fn_target : Expr) (args : Option (List Expr))
  | VarId (is_comp_provided : Bool) (name : String)
  | Primitive (val : Value)

end

/-- `Statement` (src/src/parser/types.rs lines 211-233), `loc` omitted as for
`Expr`. -/
inductive Statement where
  | Decl (ty : Whamm.DataType) (var_id : Expr)
  | Assign (var_id : Expr) (expr : Expr)
  | ExprStmt (expr : Expr)
  | Return (expr : Expr)

/-- `Probe` (src/src/parser/types.rs lines 1143-1153).  The comp-provided
`fns`/`globals` lists are always empty (`Probe::get_provided_fns/globals`,
lines 1174-1180) and are omitted. -/
structure Probe where
  mode : String
  loc : Option Location
  predicate : Option Expr
  body : Option (List Statement)

end Ast

-- ===========================================================================
-- §7  The instrumentation driver (src/src/generator/instr_generator.rs)
-- ===========================================================================

namespace InstrGen

/-- `ExprFolder::get_single_bool` lives in `crate::generator::types`, which is
not among the provided sources.  Modelled from the spec:
"`get_single_bool(expr) -> Option<bool>` returns `Some(b)` iff the expression
is a `Primitive` `Boolean`" (spec §4.6). -/
def getSingleBool : Ast.Expr → Option Bool
  | Ast.Expr.Primitive (Ast.Value.Boolean _ b) => some b
  | _ => none

/-- Decorator types of the behavior tree consumed by `InstrGenerator`.  The
`tree.rs` revision defining them is not among the provided sources; the
variants are reconstructed from the patterns matched in
src/src/generator/instr_generator.rs and from spec §3 ("Decorator types"). -/
inductive DecTy where
  | IsInstr (instr_names : List String)
  | IsProbeMode (probe_mode : String)
  | HasAltCall
  | PredIs (val : Bool)
  | ForEachProbe (target : String)
  | ForFirstProbe (target : String)

/-- Plain action types, reconstructed like `DecTy` (spec §3 "Action types"
and the `ActionType::...` patterns of instr_generator.rs). -/
inductive ActTy where
  | EnterScope (context : String) (scope_name : String)
  | ExitScope
  | Define (context : String) (var_name : String)
  | EmitPred
  | EmitBody
  | EmitOrig
  | RemoveOrig
  | EmitAltCall
  | EmitGlobalStmts
  | ForceSuccess
  | Reset

/-- `ActionWithChildType` variants matched by instr_generator.rs: `events`
maps an event name to its compiler-provided global names (a `HashMap`
embedded as an association list; `keys()` iteration order noted at use). -/
inductive ActChildTy where
  | EnterPackage (context : String) (package_name : String)
      (events : List (String × List String))
  | EnterProbe (context : String) (probe_mode : String) (global_names : List String)

/-- `ParamActionType` as matched by `visit_emit_if`/`visit_emit_if_else`:
`cond`/`conseq`/`alt` are node indices. -/
inductive ParamTy where
  | EmitIf (cond : Nat) (conseq : Nat)
  | EmitIfElse (cond : Nat) (conseq : Nat) (alt : Nat)

/-- `ArgActionType` with the node-level `force_success` flag kept on the node
(below). -/
inductive ArgTy where
  | SaveParams
  | EmitParams

/-- Behavior-tree nodes as consumed by `InstrGenerator` (`id`/`parent`
fields are never read by the visitors — only `ty`, `child`, `children` and
`force_success` are bound in its patterns — and are omitted). -/
inductive Node where
  | Root (child : Nat)
  | Sequence (children : List Nat)
  | Fallback (children : List Nat)
  | Decorator (ty : DecTy) (child : Nat)
  | ActionWithChild (ty : ActChildTy) (child : Nat)
  | ActionWithParams (ty : ParamTy)
  | ArgAction (ty : ArgTy) (force_success : Bool)
  | Action (ty : ActTy)

/-- The `Emitter` trait object held by `InstrGenerator`, modelled as a record
of state-transition functions over an abstract emitter state `σ`.  Each
method consumes the state and returns its Rust result alongside the new
state; `Result<_, Box<WhammError>>` becomes `Except Nat _` with errors as
opaque `Nat` tokens.  `fold_expr(&mut Expr) -> bool` returns the folded
expression with its success flag; `emit_expr`/`emit_body`/
`emit_global_stmts` likewise return their (possibly rewritten) `&mut`
arguments. -/
structure EmitterModel (σ : Type) where
  reset_children : σ → σ
  enter_named_scope : σ → String → Bool × σ
  exit_scope : σ → Except Nat Unit × σ
  init_instr_iter : σ → List String → Except Nat Unit × σ
  has_next_instr : σ → Bool × σ
  next_instr : σ → σ
  curr_instr_type : σ → String × σ
  has_params : σ → Except Nat Bool × σ
  save_params : σ → Bool × σ
  emit_params : σ → Except Nat Bool × σ
  has_alt_call : σ → Bool × σ
  define_compiler_var : σ → String → String → Except Nat Bool × σ
  fold_expr : σ → Ast.Expr → (Bool × Ast.Expr) × σ
  emit_expr : σ → Ast.Expr → (Except Nat Bool × Ast.Expr) × σ
  emit_body : σ → List Ast.Statement → (Except Nat Bool × List Ast.Statement) × σ
  emit_global_stmts : σ → List Ast.Statement →
      (Except Nat Bool × List Ast.Statement) × σ
  emit_alt_call : σ → Except Nat Bool × σ
  emit_orig : σ → Bool × σ
  remove_orig : σ → Bool × σ
  emit_if : σ → σ
  emit_if_else : σ → σ
  emit_condition : σ → σ
  emit_consequent : σ → σ
  emit_alternate : σ → σ
  finish_branch : σ → σ

/-- The probe lookup map of `SimpleAST` (`behavior/builder_visitor.rs`, not
among the provided sources).  Modelled from the spec:
"a `provider → package → event → mode → [Probe]` map extracted from C6"
(spec §4.7); `HashMap`s are embedded as association lists. -/
abbrev ProbesMap :=
  List (String × List (String × List (String × List (String × List Ast.Probe))))

/-- Association-list lookup standing in for `HashMap::get`. -/
def alookup {α : Type} (m : List (String × α)) (k : String) : Option α :=
  (m.find? (fun p => p.fst == k)).map (fun p => p.snd)

/-- `get_probes_from_ast` (src/src/generator/instr_generator.rs lines
666-679): four nested lookups; the code panics (`unreachable!()`) when any
level is missing, which the callers surface through the `panicked` flag of
the generator state. -/
def getProbesFromAst (probes : ProbesMap)
    (prov pkg evt mode : String) : Option (List Ast.Probe) := do
  let p ← alookup probes prov
  let k ← alookup p pkg
  let e ← alookup k evt
  alookup e mode

/-- The mutable state of `InstrGenerator` (src/src/generator/
instr_generator.rs lines 20-32) together with its error collector (`err`),
the warning counter standing in for `log::warn!` emissions, the mutable
`ast.global_stmts`, and a `panicked` flag marking a Rust `unreachable!()`
panic (after which the model's further behaviour is meaningless). -/
structure GenState (σ : Type) where
  emitter : σ
  errors : List Nat
  warnings : Nat
  panicked : Bool
  context_name : String
  curr_provider_name : String
  curr_package_name : String
  curr_event_name : String
  curr_probe_mode : String
  curr_probe : Option Ast.Probe
  ast_global_stmts : List Ast.Statement

/-- Read-only context of a run: the emitter vtable, the behavior tree's flat
node list, the `SimpleAST` probe map, and the `convert_case` crate's
`to_case(Case::Snake)` (an external dependency, kept opaque). -/
structure Ctx (σ : Type) where
  E : EmitterModel σ
  tree : List Node
  astProbes : ProbesMap
  toSnake : String → String

/-- `ErrorGen::add_error`. -/
def addError {σ : Type} (st : GenState σ) (e : Nat) : GenState σ :=
  { st with errors := st.errors ++ [e] }

/-- `ErrorGen::unexpected_error` (fatal, message-only); recorded with the
reserved token 0. -/
def addUnexpectedError {σ : Type} (st : GenState σ) : GenState σ :=
  { st with errors := st.errors ++ [0] }

/-- Marks a Rust `unreachable!()` panic. -/
def setPanic {σ : Type} (st : GenState σ) : GenState σ :=
  { st with panicked := true }

/-- `InstrGenerator::set_context_info` (lines 47-68): splits the context on
`':'` and installs positions 2..5 (after the `whamm` and script components)
into the `curr_*` fields, each only when present. -/
def setContextInfo {σ : Type} (st : GenState σ) (context : String) : GenState σ :=
  let st := { st with context_name := context }
  let parts := context.splitOn ":"
  match parts with
  | _whamm :: _script :: rest =>
    match rest with
    | provider :: rest2 =>
      let st := { st with curr_provider_name := provider }
      match rest2 with
      | package :: rest3 =>
        let st := { st with curr_package_name := package }
        match rest3 with
        | event :: rest4 =>
          let st := { st with curr_event_name := event }
          match rest4 with
          | mode :: _ => { st with curr_probe_mode := mode }
          | [] => st
        | [] => st
      | [] => st
    | [] => st
  | _ => st

end InstrGen

namespace InstrGen

/-- The `for global in globals { define_compiler_var(...) }` loops of
`visit_enter_package` (lines 322-327) and `visit_enter_probe` (lines
366-371): threads the emitter, collects `Err`s, and conjoins the `Ok`
results. -/
def defineVars {σ : Type} (E : EmitterModel σ) (st : GenState σ)
    (globals : List String) : Bool × GenState σ :=
  globals.foldl
    (fun acc g =>
      match E.define_compiler_var acc.2.emitter acc.2.context_name g with
      | (Except.error e, e2) => (acc.1, addError { acc.2 with emitter := e2 } e)
      | (Except.ok res, e2) => (acc.1 && res, { acc.2 with emitter := e2 }))
    (true, st)

/-- The special-case table of `visit_enter_package` (lines 305-311). -/
def instrTyOf {σ : Type} (ctx : Ctx σ) (s : String) : String :=
  if s == "V128Bitselect" then "v128_bitselect"
  else if s == "I8x16Swizzle" then "i8x16_swizzle"
  else if s == "I8x16Shuffle" then "i8x16_shuffle"
  else ctx.toSnake s

mutual

/-- The `BehaviorVisitor<bool>` implementation of `InstrGenerator`
(src/src/generator/instr_generator.rs lines 106-660), with the trait's
`visit_node` dispatch (whose defining `tree.rs` revision is not among the
provided sources) modelled from the spec's closed-sum visitor pattern:
dispatch on the node variant to the correspondingly named `visit_*` body.
`fuel` bounds the tree-recursion depth (the Rust recursion is unbounded on
cyclic child indices); exhaustion marks the state `panicked`.  Decorator
types without a visitor in instr_generator.rs likewise map to the panic
marker. -/
def visitNode {σ : Type} (ctx : Ctx σ) (fuel : Nat) (st : GenState σ)
    (node : Node) : Bool × GenState σ :=
  match fuel with
  | 0 => (false, setPanic st)
  | Nat.succ f =>
    match node with
    | Node.Root child =>
      -- visit_root (lines 107-117)
      match ctx.tree[child]? with
      | some nd => visitNode ctx f st nd
      | none => (true, st)
    | Node.Sequence children =>
      -- visit_sequence (lines 119-136)
      seqLoop ctx f st children
    | Node.Fallback children =>
      -- visit_fallback (lines 138-156)
      fbLoop ctx f st children
    | Node.Decorator (DecTy.IsProbeMode probe_mode) child =>
      -- visit_is_probe_mode (lines 158-177)
      if st.curr_probe_mode == probe_mode then
        match ctx.tree[child]? with
        | some nd => visitNode ctx f st nd
        | none => (true, st)
      else (false, st)
    | Node.Decorator DecTy.HasAltCall child =>
      -- visit_has_alt_call (lines 179-199)
      match ctx.E.has_alt_call st.emitter with
      | (true, e1) =>
        let st := { st with emitter := e1 }
        match ctx.tree[child]? with
        | some nd => visitNode ctx f st nd
        | none => (true, st)
      | (false, e1) => (false, { st with emitter := e1 })
    | Node.Decorator (DecTy.PredIs val) child =>
      -- visit_pred_is (lines 201-224): only a probe whose predicate folded
      -- to the desired boolean descends; every other path returns false
      match st.curr_probe with
      | some probe =>
        match probe.predicate with
        | some pred =>
          match getSingleBool pred with
          | some b =>
            if b == val then
              match ctx.tree[child]? with
              | some nd => visitNode ctx f st nd
              | none => (false, st)
            else (false, st)
          | none => (false, st)
        | none => (false, st)
      | none => (false, st)
    | Node.Decorator _ _ => (false, setPanic st)
    | Node.ArgAction ArgTy.SaveParams force =>
      -- visit_save_params (lines 226-249)
      match ctx.E.has_params st.emitter with
      | (Except.error e, e1) => (true, addError { st with emitter := e1 } e)
      | (Except.ok true, e1) =>
        match ctx.E.save_params e1 with
        | (b, e2) => (b, { st with emitter := e2 })
      | (Except.ok false, e1) => (force, { st with emitter := e1 })
    | Node.ArgAction ArgTy.EmitParams force =>
      -- visit_emit_params (lines 251-277)
      match ctx.E.has_params st.emitter with
      | (Except.error e, e1) => (true, addError { st with emitter := e1 } e)
      | (Except.ok true, e1) =>
        match ctx.E.emit_params e1 with
        | (Except.error e, e2) => (true, addError { st with emitter := e2 } e)
        | (Except.ok res, e2) => (res, { st with emitter := e2 })
      | (Except.ok false, e1) => (force, { st with emitter := e1 })
    | Node.ActionWithChild (ActChildTy.EnterPackage context package_name events) child =>
      -- visit_enter_package (lines 279-353)
      if package_name == "bytecode" then
        let st :=
          match ctx.E.init_instr_iter st.emitter (events.map Prod.fst) with
          | (Except.error e, e1) => addError { st with emitter := e1 } e
          | (Except.ok _, e1) => { st with emitter := e1 }
        let st :=
          match ctx.E.enter_named_scope st.emitter package_name with
          | (true, e1) => { st with emitter := e1 }
          | (false, e1) => addUnexpectedError { st with emitter := e1 }
        let st := setContextInfo st context
        packLoop ctx f (Nat.succ f) st true true events child
      else (true, st)
    | Node.ActionWithChild (ActChildTy.EnterProbe _context probe_mode global_names) child =>
      -- visit_enter_probe (lines 355-442)
      let st :=
        match ctx.E.enter_named_scope st.emitter probe_mode with
        | (true, e1) => { st with emitter := e1 }
        | (false, e1) => addUnexpectedError { st with emitter := e1 }
      let st := { st with curr_probe_mode := probe_mode }
      match defineVars ctx.E st global_names with
      | (isSuccess, st) =>
        if probe_mode == "before" || probe_mode == "after" then
          match getProbesFromAst ctx.astProbes st.curr_provider_name
              st.curr_package_name st.curr_event_name probe_mode with
          | none => (false, setPanic st)
          | some probe_list =>
            match probesLoop ctx f st isSuccess probe_list child with
            | (isSuccess, st) =>
              let st :=
                match ctx.E.exit_scope st.emitter with
                | (Except.error e, e1) => addError { st with emitter := e1 } e
                | (Except.ok _, e1) => { st with emitter := e1 }
              (isSuccess, st)
        else if probe_mode == "alt" then
          match getProbesFromAst ctx.astProbes st.curr_provider_name
              st.curr_package_name st.curr_event_name probe_mode with
          | none => (false, setPanic st)
          | some probe_list =>
            let st :=
              if probe_list.length > 1 then { st with warnings := st.warnings + 1 }
              else st
            match probe_list[0]? with
            | some probe =>
              match probe.predicate with
              | some pred =>
                match ctx.E.fold_expr st.emitter pred with
                | ((fr, pred2), e1) =>
                  let st := { st with emitter := e1 }
                  let isSuccess := isSuccess && fr
                  match getSingleBool pred2 with
                  | some b =>
                    if !b then
                      -- predicate folded to constant false: exit the probe
                      -- scope and short-circuit with success
                      let st :=
                        match ctx.E.exit_scope st.emitter with
                        | (Except.error e, e2) => addError { st with emitter := e2 } e
                        | (Except.ok _, e2) => { st with emitter := e2 }
                      (true, st)
                    else
                      let probe2 := { probe with predicate := some pred2 }
                      altTail ctx f { st with curr_probe := some probe2 } isSuccess child
                  | none =>
                    let probe2 := { probe with predicate := some pred2 }
                    altTail ctx f { st with curr_probe := some probe2 } isSuccess child
              | none =>
                altTail ctx f { st with curr_probe := some probe } isSuccess child
            | none => altTail ctx f st isSuccess child
        else (false, setPanic st)
    | Node.ActionWithParams (ParamTy.EmitIfElse cond conseq alt) =>
      -- visit_emit_if_else (lines 444-459)
      let st := { st with emitter := ctx.E.emit_if_else st.emitter }
      let st := emitBranchChild ctx f st ctx.E.emit_condition cond
      let st := emitBranchChild ctx f st ctx.E.emit_consequent conseq
      let st := emitBranchChild ctx f st ctx.E.emit_alternate alt
      (true, { st with emitter := ctx.E.finish_branch st.emitter })
    | Node.ActionWithParams (ParamTy.EmitIf cond conseq) =>
      -- visit_emit_if (lines 461-475)
      let st := { st with emitter := ctx.E.emit_if st.emitter }
      let st := emitBranchChild ctx f st ctx.E.emit_condition cond
      let st := emitBranchChild ctx f st ctx.E.emit_consequent conseq
      (true, { st with emitter := ctx.E.finish_branch st.emitter })
    | Node.Action (ActTy.EnterScope context scope_name) =>
      -- visit_enter_scope (lines 477-491)
      let st :=
        match ctx.E.enter_named_scope st.emitter scope_name with
        | (true, e1) => { st with emitter := e1 }
        | (false, e1) => addUnexpectedError { st with emitter := e1 }
      (true, setContextInfo st context)
    | Node.Action ActTy.ExitScope =>
      -- visit_exit_scope (lines 493-508)
      match ctx.E.exit_scope st.emitter with
      | (Except.error e, e1) => (true, addError { st with emitter := e1 } e)
      | (Except.ok _, e1) => (true, { st with emitter := e1 })
    | Node.Action (ActTy.Define _context var_name) =>
      -- visit_define (lines 510-525)
      match ctx.E.define_compiler_var st.emitter st.context_name var_name with
      | (Except.error e, e1) => (true, addError { st with emitter := e1 } e)
      | (Except.ok res, e1) => (res, { st with emitter := e1 })
    | Node.Action ActTy.EmitGlobalStmts =>
      -- visit_emit_global_stmts (lines 527-546)
      if st.ast_global_stmts.isEmpty then (true, st)
      else
        match ctx.E.emit_global_stmts st.emitter st.ast_global_stmts with
        | ((Except.error e, stmts2), e1) =>
          (true, addError { st with emitter := e1, ast_global_stmts := stmts2 } e)
        | ((Except.ok res, stmts2), e1) =>
          (res, { st with emitter := e1, ast_global_stmts := stmts2 })
    | Node.Action ActTy.EmitPred =>
      -- visit_emit_pred (lines 548-567)
      match st.curr_probe with
      | some probe =>
        match probe.predicate with
        | some pred =>
          match ctx.E.emit_expr st.emitter pred with
          | ((Except.error e, pred2), e1) =>
            let probe2 := { probe with predicate := some pred2 }
            (true, addError { st with emitter := e1, curr_probe := some probe2 } e)
          | ((Except.ok res, pred2), e1) =>
            let probe2 := { probe with predicate := some pred2 }
            (res, { st with emitter := e1, curr_probe := some probe2 })
        | none => (true, st)
      | none => (true, st)
    | Node.Action ActTy.Reset =>
      -- visit_reset (lines 569-581)
      (true, { st with emitter := ctx.E.reset_children st.emitter })
    | Node.Action ActTy.EmitBody =>
      -- visit_emit_body (lines 583-602)
      match st.curr_probe with
      | some probe =>
        match probe.body with
        | some body =>
          match ctx.E.emit_body st.emitter body with
          | ((Except.error e, body2), e1) =>
            let probe2 := { probe with body := some body2 }
            (true, addError { st with emitter := e1, curr_probe := some probe2 } e)
          | ((Except.ok res, body2), e1) =>
            let probe2 := { probe with body := some body2 }
            (res, { st with emitter := e1, curr_probe := some probe2 })
        | none => (true, st)
      | none => (true, st)
    | Node.Action ActTy.EmitAltCall =>
      -- visit_emit_alt_call (lines 604-619)
      match ctx.E.emit_alt_call st.emitter with
      | (Except.error e, e1) => (true, addError { st with emitter := e1 } e)
      | (Except.ok res, e1) => (res, { st with emitter := e1 })
    | Node.Action ActTy.RemoveOrig =>
      -- visit_remove_orig (lines 621-633)
      match ctx.E.remove_orig st.emitter with
      | (b, e1) => (b, { st with emitter := e1 })
    | Node.Action ActTy.EmitOrig =>
      -- visit_emit_orig (lines 635-647)
      match ctx.E.emit_orig st.emitter with
      | (b, e1) => (b, { st with emitter := e1 })
    | Node.Action ActTy.ForceSuccess =>
      -- visit_force_success (lines 649-659)
      (true, st)
termination_by (fuel, 2, 0)

/-- The ubiquitous `if let Some(node) = self.tree.get_node(child) { ...
visit_node(node) }` pattern: visit the indexed node, treating a missing
index as leaving `is_success` untouched (success). -/
def childVisit {σ : Type} (ctx : Ctx σ) (f : Nat) (st : GenState σ)
    (c : Nat) : Bool × GenState σ :=
  match ctx.tree[c]? with
  | some nd => visitNode ctx f st nd
  | none => (true, st)
termination_by (f + 1, 0, 0)

/-- The child loop of `visit_sequence`: a missing child index counts as
success; the first failing child stops the loop with `false`. -/
def seqLoop {σ : Type} (ctx : Ctx σ) (f : Nat) (st : GenState σ)
    (children : List Nat) : Bool × GenState σ :=
  match children with
  | [] => (true, st)
  | c :: rest =>
    match childVisit ctx f st c with
    | (true, st1) => seqLoop ctx f st1 rest
    | (false, st1) => (false, st1)
termination_by (f + 1, 1, children.length)

/-- The child loop of `visit_fallback`: the first succeeding child (or
missing child index) stops the loop with `true`. -/
def fbLoop {σ : Type} (ctx : Ctx σ) (f : Nat) (st : GenState σ)
    (children : List Nat) : Bool × GenState σ :=
  match children with
  | [] => (false, st)
  | c :: rest =>
    match childVisit ctx f st c with
    | (true, st1) => (true, st1)
    | (false, st1) => fbLoop ctx f st1 rest
termination_by (f + 1, 1, children.length)

/-- One `emit_cond`/`emit_conseq`/`emit_alt` helper call (lines 70-104):
fires the corresponding emitter phase and visits the argument node,
discarding its success; a missing node records an unexpected error. -/
def emitBranchChild {σ : Type} (ctx : Ctx σ) (f : Nat) (st : GenState σ)
    (phase : σ → σ) (idx : Nat) : GenState σ :=
  match ctx.tree[idx]? with
  | some nd =>
    let st := { st with emitter := phase st.emitter }
    (visitNode ctx f st nd).2
  | none => addUnexpectedError st
termination_by (f + 1, 1, 0)

/-- The `while first_instr || has_next_instr()` loop of
`visit_enter_package` (lines 299-341), bounded by the iteration fuel `g`. -/
def packLoop {σ : Type} (ctx : Ctx σ) (f : Nat) (g : Nat) (st : GenState σ)
    (first : Bool) (isSuccess : Bool) (events : List (String × List String))
    (child : Nat) : Bool × GenState σ :=
  match g with
  | 0 => (false, setPanic st)
  | Nat.succ g2 =>
    let cont : Bool × GenState σ :=
      if first then (true, st)
      else
        match ctx.E.has_next_instr st.emitter with
        | (b, e1) => (b, { st with emitter := e1 })
    match cont with
    | (false, st) =>
      let st :=
        match ctx.E.exit_scope st.emitter with
        | (Except.error e, e1) => addError { st with emitter := e1 } e
        | (Except.ok _, e1) => { st with emitter := e1 }
      (isSuccess, st)
    | (true, st) =>
      let st :=
        if first then st else { st with emitter := ctx.E.next_instr st.emitter }
      match ctx.E.curr_instr_type st.emitter with
      | (tyStr, e1) =>
        let st := { st with emitter := e1 }
        let instr_ty := instrTyOf ctx tyStr
        match alookup events instr_ty with
        | some globals =>
          let st :=
            match ctx.E.enter_named_scope st.emitter instr_ty with
            | (true, e2) => { st with emitter := e2 }
            | (false, e2) => addUnexpectedError { st with emitter := e2 }
          let st := { st with curr_event_name := instr_ty }
          match defineVars ctx.E st globals with
          | (defOk, st) =>
            match childVisit ctx f st child with
            | (childOk, st) =>
              let st :=
                match ctx.E.exit_scope st.emitter with
                | (Except.error e, e2) => addError { st with emitter := e2 } e
                | (Except.ok _, e2) => { st with emitter := e2 }
              packLoop ctx f g2 st false (isSuccess && defOk && childOk) events child
        | none => packLoop ctx f g2 st false isSuccess events child
termination_by (f + 1, 1, g)

/-- The `for i in 0..probe_list_len` loop of the `before`/`after` branch of
`visit_enter_probe` (lines 375-396): per probe, fold its (cloned) predicate,
install it as `curr_probe`, and visit the child node. -/
def probesLoop {σ : Type} (ctx : Ctx σ) (f : Nat) (st : GenState σ)
    (isSuccess : Bool) (probe_list : List Ast.Probe) (child : Nat) :
    Bool × GenState σ :=
  match probe_list with
  | [] => (isSuccess, st)
  | probe :: rest =>
    let (isSuccess, st) :=
      match probe.predicate with
      | some pred =>
        match ctx.E.fold_expr st.emitter pred with
        | ((fr, pred2), e1) =>
          let probe2 := { probe with predicate := some pred2 }
          (isSuccess && fr, { st with emitter := e1, curr_probe := some probe2 })
      | none => (isSuccess, { st with curr_probe := some probe })
    match childVisit ctx f st child with
    | (childOk, st) => probesLoop ctx f st (isSuccess && childOk) rest child
termination_by (f + 1, 1, probe_list.length)

/-- The tail of the `alt` branch of `visit_enter_probe` after the
short-circuit check (lines 428-438): visit the child node, then exit the
probe scope. -/
def altTail {σ : Type} (ctx : Ctx σ) (f : Nat) (st : GenState σ)
    (isSuccess : Bool) (child : Nat) : Bool × GenState σ :=
  match childVisit ctx f st child with
  | (childOk, st) =>
    let st :=
      match ctx.E.exit_scope st.emitter with
      | (Except.error e, e1) => addError { st with emitter := e1 } e
      | (Except.ok _, e1) => { st with emitter := e1 }
    (isSuccess && childOk, st)
termination_by (f + 1, 1, 0)

end

end InstrGen

/-- C10: `visit_emit_if` and `visit_emit_if_else` unconditionally return
`true`: the boolean success results of visiting the condition, consequent and
(for if-else) alternate child nodes are discarded (`emit_cond`/`emit_conseq`/
`emit_alt` results are not consulted), so a failed emission inside an emitted
if/else branch never propagates as failure to the enclosing sequence. -/
theorem c10_emit_if_always_true {σ : Type} (ctx : InstrGen.Ctx σ) (fuel : Nat)
    (st : InstrGen.GenState σ) (cond conseq alt : Nat) :
    (InstrGen.visitNode ctx (fuel + 1) st
      (InstrGen.Node.ActionWithParams (InstrGen.ParamTy.EmitIfElse cond conseq alt))).1
      = true ∧
    (InstrGen.visitNode ctx (fuel + 1) st
      (InstrGen.Node.ActionWithParams (InstrGen.ParamTy.EmitIf cond conseq))).1
      = true := by
  constructor <;> simp [InstrGen.visitNode]

/-- C8: for both `SaveParams` and `EmitParams`, when `has_params()` returns
`Ok(false)` the visitor returns exactly the node's `force_success` flag and
performs no save/emit (the emitter is left exactly as the `has_params` call
left it), and when it returns `Ok(true)` the visitor performs the
corresponding save/emit and returns its success value. -/
theorem c8_params_force_success {σ : Type} (ctx : InstrGen.Ctx σ) (fuel : Nat)
    (st : InstrGen.GenState σ) (force : Bool) :
    (∀ e1 : σ, ctx.E.has_params st.emitter = (Except.ok false, e1) →
      InstrGen.visitNode ctx (fuel + 1) st
          (InstrGen.Node.ArgAction InstrGen.ArgTy.SaveParams force)
        = (force, { st with emitter := e1 }) ∧
      InstrGen.visitNode ctx (fuel + 1) st
          (InstrGen.Node.ArgAction InstrGen.ArgTy.EmitParams force)
        = (force, { st with emitter := e1 })) ∧
    (∀ (e1 e2 : σ) (b : Bool), ctx.E.has_params st.emitter = (Except.ok true, e1) →
      ctx.E.save_params e1 = (b, e2) →
      InstrGen.visitNode ctx (fuel + 1) st
          (InstrGen.Node.ArgAction InstrGen.ArgTy.SaveParams force)
        = (b, { st with emitter := e2 })) ∧
    (∀ (e1 e2 : σ) (b : Bool), ctx.E.has_params st.emitter = (Except.ok true, e1) →
      ctx.E.emit_params e1 = (Except.ok b, e2) →
      InstrGen.visitNode ctx (fuel + 1) st
          (InstrGen.Node.ArgAction InstrGen.ArgTy.EmitParams force)
        = (b, { st with emitter := e2 })) := by
  refine ⟨?_, ?_, ?_⟩
  · intro e1 h
    constructor <;> simp [InstrGen.visitNode, h]
  · intro e1 e2 b h hs
    simp [InstrGen.visitNode, h, hs]
  · intro e1 e2 b h hs
    simp [InstrGen.visitNode, h, hs]

namespace InstrGen

/-- A concrete trace emitter used by the witnesses: the state is the list of
method tags recorded so far; query results are the supplied constants
(`hp` for `has_params`, `sp` for `save_params`/`emit_params`). -/
def mkE (hp : Except Nat Bool) (sp : Bool) : EmitterModel (List String) where
  reset_children := fun s => s ++ ["reset_children"]
  enter_named_scope := fun s n => (true, s ++ ["enter_named_scope " ++ n])
  exit_scope := fun s => (Except.ok (), s ++ ["exit_scope"])
  init_instr_iter := fun s _ => (Except.ok (), s ++ ["init_instr_iter"])
  has_next_instr := fun s => (false, s ++ ["has_next_instr"])
  next_instr := fun s => s ++ ["next_instr"]
  curr_instr_type := fun s => ("Call", s ++ ["curr_instr_type"])
  has_params := fun s => (hp, s ++ ["has_params"])
  save_params := fun s => (sp, s ++ ["save_params"])
  emit_params := fun s => (Except.ok sp, s ++ ["emit_params"])
  has_alt_call := fun s => (true, s ++ ["has_alt_call"])
  define_compiler_var := fun s _ n => (Except.ok true, s ++ ["define " ++ n])
  fold_expr := fun s e => ((true, e), s ++ ["fold_expr"])
  emit_expr := fun s e => ((Except.ok true, e), s ++ ["emit_expr"])
  emit_body := fun s b => ((Except.ok true, b), s ++ ["emit_body"])
  emit_global_stmts := fun s b => ((Except.ok true, b), s ++ ["emit_global_stmts"])
  emit_alt_call := fun s => (Except.ok true, s ++ ["emit_alt_call"])
  emit_orig := fun s => (true, s ++ ["emit_orig"])
  remove_orig := fun s => (true, s ++ ["remove_orig"])
  emit_if := fun s => s ++ ["emit_if"]
  emit_if_else := fun s => s ++ ["emit_if_else"]
  emit_condition := fun s => s ++ ["emit_condition"]
  emit_consequent := fun s => s ++ ["emit_consequent"]
  emit_alternate := fun s => s ++ ["emit_alternate"]
  finish_branch := fun s => s ++ ["finish_branch"]

/-- An empty generator state over the trace emitter. -/
def st0 : GenState (List String) where
  emitter := []
  errors := []
  warnings := 0
  panicked := false
  context_name := ""
  curr_provider_name := ""
  curr_package_name := ""
  curr_event_name := ""
  curr_probe_mode := ""
  curr_probe := none
  ast_global_stmts := []

/-- A context over the trace emitter with a given tree and probe map. -/
def mkCtx (hp : Except Nat Bool) (sp : Bool) (tree : List Node)
    (probes : ProbesMap) : Ctx (List String) where
  E := mkE hp sp
  tree := tree
  astProbes := probes
  toSnake := fun s => s

end InstrGen

/-- Witness for C8: on the trace emitter answering `has_params = Ok(false)`,
`SaveParams` returns the `force_success` flag with no further emitter call;
answering `Ok(true)`, it returns `save_params`'s result. -/
theorem c8_params_force_success_witness :
    InstrGen.visitNode (InstrGen.mkCtx (Except.ok false) true [] []) 1 InstrGen.st0
        (InstrGen.Node.ArgAction InstrGen.ArgTy.SaveParams true)
      = (true, { InstrGen.st0 with emitter := ["has_params"] }) ∧
    InstrGen.visitNode (InstrGen.mkCtx (Except.ok true) false [] []) 1 InstrGen.st0
        (InstrGen.Node.ArgAction InstrGen.ArgTy.SaveParams true)
      = (false, { InstrGen.st0 with emitter := ["has_params", "save_params"] }) := by
  constructor
  · exact ((c8_params_force_success (InstrGen.mkCtx (Except.ok false) true [] []) 0
      InstrGen.st0 true).1 ["has_params"] rfl).1
  · exact (c8_params_force_success (InstrGen.mkCtx (Except.ok true) false [] [])
      0 InstrGen.st0 true).2.1 ["has_params"] ["has_params", "save_params"] false rfl rfl

namespace InstrGen

theorem seqLoop_append {σ : Type} (ctx : Ctx σ) (f : Nat) (st : GenState σ)
    (cs1 cs2 : List Nat) :
    seqLoop ctx f st (cs1 ++ cs2)
      = match seqLoop ctx f st cs1 with
        | (true, st1) => seqLoop ctx f st1 cs2
        | (false, st1) => (false, st1) := by
  induction cs1 generalizing st with
  | nil => simp [seqLoop]
  | cons c rest ih =>
    rw [List.cons_append]
    rw [seqLoop, seqLoop]
    cases hcv : childVisit ctx f st c with
    | mk b st1 =>
      cases b with
      | true => simpa using ih st1
      | false => simp

theorem fbLoop_append {σ : Type} (ctx : Ctx σ) (f : Nat) (st : GenState σ)
    (cs1 cs2 : List Nat) :
    fbLoop ctx f st (cs1 ++ cs2)
      = match fbLoop ctx f st cs1 with
        | (false, st1) => fbLoop ctx f st1 cs2
        | (true, st1) => (true, st1) := by
  induction cs1 generalizing st with
  | nil => simp [fbLoop]
  | cons c rest ih =>
    rw [List.cons_append]
    rw [fbLoop, fbLoop]
    cases hcv : childVisit ctx f st c with
    | mk b st1 =>
      cases b with
      | false => simpa using ih st1
      | true => simp

end InstrGen

namespace InstrGen

theorem seqLoop_all_succeed {σ : Type} (ctx : Ctx σ) (f : Nat) :
    ∀ (cs : List Nat) (st st2 : GenState σ), seqLoop ctx f st cs = (true, st2) →
    ∀ k, k < cs.length →
      ∃ (stk stk1 : GenState σ) (ck : Nat),
        seqLoop ctx f st (cs.take k) = (true, stk) ∧ cs[k]? = some ck ∧
        childVisit ctx f stk ck = (true, stk1) := by
  intro cs
  induction cs with
  | nil => intro st st2 h k hk; simp at hk
  | cons c rest ih =>
    intro st st2 h k hk
    rw [seqLoop] at h
    cases hcv : childVisit ctx f st c with
    | mk b st1 =>
      rw [hcv] at h
      cases b with
      | false => simp at h
      | true =>
        simp at h
        cases k with
        | zero =>
          refine ⟨st, st1, c, ?_, ?_, hcv⟩
          · simp [seqLoop]
          · simp
        | succ k2 =>
          have hk2 : k2 < rest.length := by simpa using hk
          obtain ⟨stk, stk1, ck, h1, h2, h3⟩ := ih st1 st2 h k2 hk2
          refine ⟨stk, stk1, ck, ?_, ?_, h3⟩
          · rw [List.take_succ_cons, seqLoop, hcv]
            exact h1
          · simpa using h2

theorem fbLoop_all_fail {σ : Type} (ctx : Ctx σ) (f : Nat) :
    ∀ (cs : List Nat) (st st2 : GenState σ), fbLoop ctx f st cs = (false, st2) →
    ∀ k, k < cs.length →
      ∃ (stk stk1 : GenState σ) (ck : Nat),
        fbLoop ctx f st (cs.take k) = (false, stk) ∧ cs[k]? = some ck ∧
        childVisit ctx f stk ck = (false, stk1) := by
  intro cs
  induction cs with
  | nil => intro st st2 h k hk; simp at hk
  | cons c rest ih =>
    intro st st2 h k hk
    rw [fbLoop] at h
    cases hcv : childVisit ctx f st c with
    | mk b st1 =>
      rw [hcv] at h
      cases b with
      | true => simp at h
      | false =>
        simp at h
        cases k with
        | zero =>
          refine ⟨st, st1, c, ?_, ?_, hcv⟩
          · simp [fbLoop]
          · simp
        | succ k2 =>
          have hk2 : k2 < rest.length := by simpa using hk
          obtain ⟨stk, stk1, ck, h1, h2, h3⟩ := ih st1 st2 h k2 hk2
          refine ⟨stk, stk1, ck, ?_, ?_, h3⟩
          · rw [List.take_succ_cons, fbLoop, hcv]
            exact h1
          · simpa using h2

end InstrGen

/-- C7: `visit_sequence` visits the children in order and returns `false` at
the first child whose visit fails, leaving the state exactly as that child
left it (the remaining children are not visited), and returns `true` only
when every child's visit succeeds; dually, `visit_fallback` returns `true`
at the first child whose visit succeeds, without visiting the remaining
children, and returns `false` only when every child's visit fails.  (A
dangling child index is skipped and counts as success, per the
`if let Some(node) = get_node(child)` guard.) -/
theorem c7_sequence_fallback_semantics {σ : Type} (ctx : InstrGen.Ctx σ)
    (fuel : Nat) (st : InstrGen.GenState σ) :
    (∀ cs : List Nat,
      InstrGen.visitNode ctx (fuel + 1) st (InstrGen.Node.Sequence cs)
        = InstrGen.seqLoop ctx fuel st cs ∧
      InstrGen.visitNode ctx (fuel + 1) st (InstrGen.Node.Fallback cs)
        = InstrGen.fbLoop ctx fuel st cs) ∧
    (∀ (cs1 : List Nat) (c : Nat) (cs2 : List Nat) (st1 st2 : InstrGen.GenState σ),
      InstrGen.seqLoop ctx fuel st cs1 = (true, st1) →
      InstrGen.childVisit ctx fuel st1 c = (false, st2) →
      InstrGen.visitNode ctx (fuel + 1) st (InstrGen.Node.Sequence (cs1 ++ c :: cs2))
        = (false, st2)) ∧
    (∀ (cs : List Nat) (st2 : InstrGen.GenState σ),
      InstrGen.visitNode ctx (fuel + 1) st (InstrGen.Node.Sequence cs) = (true, st2) →
      ∀ k, k < cs.length →
        ∃ (stk stk1 : InstrGen.GenState σ) (ck : Nat),
          InstrGen.seqLoop ctx fuel st (cs.take k) = (true, stk) ∧ cs[k]? = some ck ∧
          InstrGen.childVisit ctx fuel stk ck = (true, stk1)) ∧
    (∀ (cs1 : List Nat) (c : Nat) (cs2 : List Nat) (st1 st2 : InstrGen.GenState σ),
      InstrGen.fbLoop ctx fuel st cs1 = (false, st1) →
      InstrGen.childVisit ctx fuel st1 c = (true, st2) →
      InstrGen.visitNode ctx (fuel + 1) st (InstrGen.Node.Fallback (cs1 ++ c :: cs2))
        = (true, st2)) ∧
    (∀ (cs : List Nat) (st2 : InstrGen.GenState σ),
      InstrGen.visitNode ctx (fuel + 1) st (InstrGen.Node.Fallback cs) = (false, st2) →
      ∀ k, k < cs.length →
        ∃ (stk stk1 : InstrGen.GenState σ) (ck : Nat),
          InstrGen.fbLoop ctx fuel st (cs.take k) = (false, stk) ∧ cs[k]? = some ck ∧
          InstrGen.childVisit ctx fuel stk ck = (false, stk1)) := by
  have hbridgeS : ∀ cs : List Nat,
      InstrGen.visitNode ctx (fuel + 1) st (InstrGen.Node.Sequence cs)
        = InstrGen.seqLoop ctx fuel st cs := by
    intro cs; simp [InstrGen.visitNode]
  have hbridgeF : ∀ cs : List Nat,
      InstrGen.visitNode ctx (fuel + 1) st (InstrGen.Node.Fallback cs)
        = InstrGen.fbLoop ctx fuel st cs := by
    intro cs; simp [InstrGen.visitNode]
  refine ⟨fun cs => ⟨hbridgeS cs, hbridgeF cs⟩, ?_, ?_, ?_, ?_⟩
  · intro cs1 c cs2 st1 st2 h1 h2
    rw [hbridgeS, InstrGen.seqLoop_append, h1]
    simp [InstrGen.seqLoop, h2]
  · intro cs st2 h k hk
    rw [hbridgeS] at h
    exact InstrGen.seqLoop_all_succeed ctx fuel cs st st2 h k hk
  · intro cs1 c cs2 st1 st2 h1 h2
    rw [hbridgeF, InstrGen.fbLoop_append, h1]
    simp [InstrGen.fbLoop, h2]
  · intro cs st2 h k hk
    rw [hbridgeF] at h
    exact InstrGen.fbLoop_all_fail ctx fuel cs st st2 h k hk

/-- Witness for C7: over a concrete two-node tree (a `ForceSuccess` action
and a failing `PredIs` decorator), the sequence `[0, 1, 0]` stops at the
failing second child with `false`, and the fallback `[1, 0, 1]` stops at the
succeeding second child with `true`. -/
theorem c7_sequence_fallback_semantics_witness :
    InstrGen.visitNode
        (InstrGen.mkCtx (Except.ok false) true
          [InstrGen.Node.Action InstrGen.ActTy.ForceSuccess,
           InstrGen.Node.Decorator (InstrGen.DecTy.PredIs true) 0] [])
        2 InstrGen.st0 (InstrGen.Node.Sequence [0, 1, 0])
      = (false, InstrGen.st0) ∧
    InstrGen.visitNode
        (InstrGen.mkCtx (Except.ok false) true
          [InstrGen.Node.Action InstrGen.ActTy.ForceSuccess,
           InstrGen.Node.Decorator (InstrGen.DecTy.PredIs true) 0] [])
        2 InstrGen.st0 (InstrGen.Node.Fallback [1, 0, 1])
      = (true, InstrGen.st0) := by
  constructor
  · have h := (c7_sequence_fallback_semantics
      (InstrGen.mkCtx (Except.ok false) true
        [InstrGen.Node.Action InstrGen.ActTy.ForceSuccess,
         InstrGen.Node.Decorator (InstrGen.DecTy.PredIs true) 0] [])
      1 InstrGen.st0).2.1 [0] 1 [0] InstrGen.st0 InstrGen.st0
      (by simp [InstrGen.seqLoop, InstrGen.childVisit, InstrGen.visitNode, InstrGen.mkCtx])
      (by simp [InstrGen.childVisit, InstrGen.visitNode, InstrGen.mkCtx, InstrGen.st0])
    simpa using h
  · have h := (c7_sequence_fallback_semantics
      (InstrGen.mkCtx (Except.ok false) true
        [InstrGen.Node.Action InstrGen.ActTy.ForceSuccess,
         InstrGen.Node.Decorator (InstrGen.DecTy.PredIs true) 0] [])
      1 InstrGen.st0).2.2.2.1 [1] 0 [1] InstrGen.st0 InstrGen.st0
      (by simp [InstrGen.fbLoop, InstrGen.childVisit, InstrGen.visitNode, InstrGen.mkCtx, InstrGen.st0])
      (by simp [InstrGen.childVisit, InstrGen.visitNode, InstrGen.mkCtx])
    simpa using h

/-- C6: in `visit_enter_probe` with probe mode `alt`, only the first probe of the
probe list for the current (provider, package, event, mode) is consulted (the
rest appear only through the warning: a warning is recorded exactly when the
list holds more than one probe), and if the first probe's folded predicate is
the constant `Boolean false` the visitor performs no emission for that probe,
exits the probe scope, and returns `true`; otherwise it proceeds to the alt
tail (body/emit handling) with the folded predicate stored in `curr_probe`. -/
theorem c6_alt_probe {σ : Type} (ctx : InstrGen.Ctx σ) (fuel : Nat)
    (st : InstrGen.GenState σ) (context : String) (global_names : List String)
    (child : Nat) (e1 e3 : σ) (st2 : InstrGen.GenState σ) (dok fr : Bool)
    (probe : Ast.Probe) (rest : List Ast.Probe) (pred pred2 : Ast.Expr)
    (henter : ctx.E.enter_named_scope st.emitter "alt" = (true, e1))
    (hdef : InstrGen.defineVars ctx.E
      { st with emitter := e1, curr_probe_mode := "alt" } global_names = (dok, st2))
    (hget : InstrGen.getProbesFromAst ctx.astProbes st2.curr_provider_name
      st2.curr_package_name st2.curr_event_name "alt" = some (probe :: rest))
    (hpred : probe.predicate = some pred)
    (hfold : ctx.E.fold_expr st2.emitter pred = ((fr, pred2), e3)) :
    (∀ e4 : σ, InstrGen.getSingleBool pred2 = some false →
      ctx.E.exit_scope e3 = (Except.ok (), e4) →
      InstrGen.visitNode ctx (fuel + 1) st
        (InstrGen.Node.ActionWithChild
          (InstrGen.ActChildTy.EnterProbe context "alt" global_names) child)
        = (true, { st2 with
            warnings := if rest.isEmpty then st2.warnings else st2.warnings + 1,
            emitter := e4 })) ∧
    (InstrGen.getSingleBool pred2 ≠ some false →
      InstrGen.visitNode ctx (fuel + 1) st
        (InstrGen.Node.ActionWithChild
          (InstrGen.ActChildTy.EnterProbe context "alt" global_names) child)
        = InstrGen.altTail ctx fuel
            { st2 with
              warnings := if rest.isEmpty then st2.warnings else st2.warnings + 1,
              emitter := e3,
              curr_probe := some { probe with predicate := some pred2 } }
            (dok && fr) child) := by
  constructor
  · intro e4 hfalse hexit
    cases rest with
    | nil =>
      simp [InstrGen.visitNode, henter, hdef, hget, hpred, hfold, hfalse, hexit]
    | cons r rs =>
      simp [InstrGen.visitNode, henter, hdef, hget, hpred, hfold, hfalse, hexit]
  · intro hne
    cases hgs : InstrGen.getSingleBool pred2 with
    | none =>
      cases rest with
      | nil => simp [InstrGen.visitNode, henter, hdef, hget, hpred, hfold, hgs]
      | cons r rs => simp [InstrGen.visitNode, henter, hdef, hget, hpred, hfold, hgs]
    | some b =>
      cases b with
      | false => exact absurd hgs hne
      | true =>
        cases rest with
        | nil => simp [InstrGen.visitNode, henter, hdef, hget, hpred, hfold, hgs]
        | cons r rs => simp [InstrGen.visitNode, henter, hdef, hget, hpred, hfold, hgs]

namespace InstrGen

/-- A concrete `alt` probe whose predicate is the constant `false`. -/
def probeFalse : Ast.Probe where
  mode := "alt"
  loc := none
  predicate := some (Ast.Expr.Primitive (Ast.Value.Boolean Whamm.DataType.Boolean false))
  body := none

/-- A concrete `alt` probe with a `true` predicate (the ignored second probe). -/
def probeTrue : Ast.Probe where
  mode := "alt"
  loc := none
  predicate := some (Ast.Expr.Primitive (Ast.Value.Boolean Whamm.DataType.Boolean true))
  body := none

/-- A probe map holding two `alt` probes at the (empty-name) current scope. -/
def probes2 : ProbesMap :=
  [("", [("", [("", [("alt", [probeFalse, probeTrue])])])])]

end InstrGen

/-- C6 witness: a concrete two-probe `alt` list with a constant-false first
predicate; the visitor warns once, emits nothing, exits the scope, succeeds. -/
theorem c6_alt_probe_witness :
    InstrGen.visitNode (InstrGen.mkCtx (Except.ok false) true [] InstrGen.probes2)
        1 InstrGen.st0
        (InstrGen.Node.ActionWithChild
          (InstrGen.ActChildTy.EnterProbe "whamm:script0:wasm:bytecode:call:alt" "alt" []) 0)
      = (true, { InstrGen.st0 with
          warnings := 1,
          curr_probe_mode := "alt",
          emitter := ["enter_named_scope alt", "fold_expr", "exit_scope"] }) := by
  have h := (c6_alt_probe (InstrGen.mkCtx (Except.ok false) true [] InstrGen.probes2)
      0 InstrGen.st0 "whamm:script0:wasm:bytecode:call:alt" [] 0
      ["enter_named_scope alt"] ["enter_named_scope alt", "fold_expr"]
      { InstrGen.st0 with emitter := ["enter_named_scope alt"], curr_probe_mode := "alt" }
      true true InstrGen.probeFalse [InstrGen.probeTrue]
      (Ast.Expr.Primitive (Ast.Value.Boolean Whamm.DataType.Boolean false))
      (Ast.Expr.Primitive (Ast.Value.Boolean Whamm.DataType.Boolean false))
      rfl rfl rfl rfl rfl).1
      ["enter_named_scope alt", "fold_expr", "exit_scope"] rfl rfl
  simpa using h

/-! ### §8  `Script::add_probe` and the glob matchers (claim C3) -/

namespace AddProbe

abbrev Str := List Char

/-- ASCII lowercasing, as `str::to_lowercase` acts on the ASCII names and
patterns the registry uses. -/
def lowerChar (c : Char) : Char :=
  if 'A' ≤ c ∧ c ≤ 'Z' then Char.ofNat (c.toNat + 32) else c

def upperChar (c : Char) : Char :=
  if 'a' ≤ c ∧ c ≤ 'z' then Char.ofNat (c.toNat - 32) else c

def lower (s : Str) : Str := s.map lowerChar

def upper (s : Str) : Str := s.map upperChar

/-- The `glob` crate's `Pattern::matches` for the pattern forms the probe
specs use: `*` matches any (possibly empty) sequence, `?` exactly one
character, any other character itself. -/
def globMatch : Str → Str → Bool
  | [], [] => true
  | [], _ :: _ => false
  | '*' :: ps, [] => globMatch ps []
  | '*' :: ps, c :: s => globMatch ps (c :: s) || globMatch ('*' :: ps) s
  | '?' :: _, [] => false
  | '?' :: ps, _ :: s => globMatch ps s
  | _ :: _, [] => false
  | p :: ps, c :: s => p == c && globMatch ps s
termination_by p s => (p.length, s.length)

theorem globMatch_star_true (s : Str) : globMatch (['*'] : Str) s = true := by
  induction s with
  | nil => simp [globMatch]
  | cons c rest ih => simp [globMatch, ih]






end AddProbe

namespace AddProbe

/-- `matches_globs` (src/src/parser/types.rs lines 928–935): first matching
glob wins. -/
def matchesGlobs (s : Str) : List Str → Bool
  | [] => false
  | g :: rest => if globMatch g s then true else matchesGlobs s rest

/-- `str::split('|')` on the pattern, as used by `get_globs` (lines 937–944);
each piece stands for `Pattern::new(piece)`. -/
def splitBar : Str → List Str
  | [] => [[]]
  | '|' :: rest => [] :: splitBar rest
  | c :: rest =>
    match splitBar rest with
    | [] => [[c]]
    | p :: ps => (c :: p) :: ps

def getGlobs (patt : Str) : List Str := splitBar patt

/-- The registry `ProvidedProbes` (types.rs lines 420–432) with the
`ProvidedFunctionality` documentation dropped: `add_probe` and the
`get_matches` functions only ever read the names.  Rust `HashMap`s are
association lists in insertion order. -/
abbrev Registry := List (Str × List (Str × List (Str × List Str)))

def alook {β : Type} : List (Str × β) → Str → Option β
  | [], _ => none
  | (k, v) :: rest, key => if k = key then some v else alook rest key

/-- The shared match-collection loop of the `get_matches` functions: walk the
level's entries in order, keep the names whose lowercasing matches. -/
def matchLoop {β : Type} (globs : List Str) : List (Str × β) → List Str
  | [] => []
  | (name, _) :: rest =>
    if matchesGlobs (lower name) globs then name :: matchLoop globs rest
    else matchLoop globs rest

/-- Mode lists are plain name lists (the `Vec<(ProvidedFunctionality,
String)>` with docs dropped). -/
def modeMatchLoop (globs : List Str) : List Str → List Str
  | [] => []
  | name :: rest =>
    if matchesGlobs (lower name) globs then name :: modeMatchLoop globs rest
    else modeMatchLoop globs rest

/-- `OldProvider::get_matches` (types.rs lines 1025–1039). -/
def getMatchesProvider (pp : Registry) (provPatt : Str) : List Str :=
  matchLoop (getGlobs (lower provPatt)) pp

/-- `Package::get_matches` (types.rs lines 1064–1080); `none` models the
`provided_probes.get(provider).unwrap()` panic. -/
def getMatchesPackage (pp : Registry) (provider modPatt : Str) : Option (List Str) :=
  match alook pp provider with
  | none => none
  | some pkgs => some (matchLoop (getGlobs (lower modPatt)) pkgs)

/-- `Event::get_matches` (types.rs lines 1102–1127). -/
def getMatchesEvent (pp : Registry) (provider package funcPatt : Str) :
    Option (List Str) :=
  match alook pp provider with
  | none => none
  | some pkgs =>
    match alook pkgs package with
    | none => none
    | some evts => some (matchLoop (getGlobs (lower funcPatt)) evts)

/-- `Probe::get_matches` (types.rs lines 1183–1212). -/
def getMatchesMode (pp : Registry) (provider package event modePatt : Str) :
    Option (List Str) :=
  match alook pp provider with
  | none => none
  | some pkgs =>
    match alook pkgs package with
    | none => none
    | some evts =>
      match alook evts event with
      | none => none
      | some modes => some (modeMatchLoop (getGlobs (lower modePatt)) modes)

end AddProbe

namespace AddProbe

/-- One component of a parsed probe spec (`SpecPart { name, loc }`); the
location is an opaque token standing for the `line_col` span. -/
structure SpecPart where
  name : Str
  loc : Option Nat
deriving DecidableEq

/-- `ProbeSpec` with its four optional components. -/
structure ProbeSpec where
  provider : Option SpecPart
  package : Option SpecPart
  event : Option SpecPart
  mode : Option SpecPart
deriving DecidableEq

/-- `parser::types::Probe` as stored by `add_probe`: the predicate and body
payloads are opaque tokens (they are only cloned, never inspected). -/
structure ProbeRec where
  mode : Str
  loc : Option Nat
  predicate : Option Nat
  body : Option Nat
deriving DecidableEq

/-- `Event` restricted to the fields `add_probe` touches. -/
structure Evt where
  name : Str
  probe_map : List (Str × List ProbeRec)
  loc : Option Nat
deriving DecidableEq

/-- `Package` restricted to the fields `add_probe` touches. -/
structure Pkg where
  name : Str
  events : List (Str × Evt)
  loc : Option Nat
deriving DecidableEq

/-- `OldProvider` restricted to the fields `add_probe` touches. -/
structure Prov where
  name : Str
  packages : List (Str × Pkg)
  loc : Option Nat
deriving DecidableEq

/-- `Script` restricted to the `providers` map `add_probe` mutates. -/
structure Script where
  providers : List (Str × Prov)
deriving DecidableEq

/-- `HashMap::insert`: replace in place at an existing key, append otherwise. -/
def ainsert {β : Type} (k : Str) (v : β) : List (Str × β) → List (Str × β)
  | [] => [(k, v)]
  | (k2, v2) :: rest =>
    if k = k2 then (k2, v) :: rest else (k2, v2) :: ainsert k v rest

/-- `HashMap::remove`. -/
def aremove {β : Type} (k : Str) : List (Str × β) → List (Str × β)
  | [] => []
  | (k2, v2) :: rest => if k = k2 then rest else (k2, v2) :: aremove k rest

/-- Push onto the probe list stored at key `k`. -/
def apush (k : Str) (p : ProbeRec) :
    List (Str × List ProbeRec) → List (Str × List ProbeRec)
  | [] => []
  | (k2, ps) :: rest =>
    if k = k2 then (k2, ps ++ [p]) :: rest else (k2, ps) :: apush k p rest

/-- `Event::insert_probe` (types.rs lines 1129–1140). -/
def insertProbe (ev : Evt) (name : Str) (p : ProbeRec) : Evt :=
  match alook ev.probe_map name with
  | some _ => { ev with probe_map := apush name p ev.probe_map }
  | none => { ev with probe_map := ainsert name [p] ev.probe_map }

/-- How one call of `add_probe` ends.  The constructors stand for `Ok(())`,
the parse error "Could not find any matches for the specified provider
pattern: {name}" at the given span, the parse error "Could not find any
matches for this pattern" at the given span, the two
`get_unexpected_error` returns ("Could not find a package matching
pattern!", "Could not find an event matching pattern!", "Could not find a
provider matching pattern!" folded into the spec-part concerned), and an
`unwrap` panic. -/
inductive AddResult where
  | ok
  | parseErrorProvider (pattName : Str) (loc : Nat)
  | parseErrorPattern (loc : Nat)
  | unexpectedNoProvider
  | unexpectedNoPackage
  | unexpectedNoEvent
  | panicked
deriving DecidableEq

/-- The mode-level loop of `add_probe` (types.rs lines 870–881): insert one
probe clone per matched mode name, clearing `is_empty`. -/
def modeLoop (modePatt : SpecPart) (pred body : Option Nat) :
    List Str → Evt → Bool → Evt × Bool
  | [], ev, is_empty => (ev, is_empty)
  | name :: rest, ev, _ =>
    modeLoop modePatt pred body rest
      (insertProbe ev name
        { mode := modePatt.name, loc := modePatt.loc,
          predicate := pred, body := body })
      false

/-- The event-level loop (types.rs lines 841–883).  An existing event is
mutated in place (`ainsert` at its key); a missing one is first inserted at
the lowercased key with the event pattern's location.  A `.error` return
carries the package as mutated so far (`Probe::get_matches` can only fail by
the registry-lookup `unwrap` panics). -/
def evtLoop (pp : Registry) (provider_str package_str : Str) (specMode : Option SpecPart)
    (eventPatt : SpecPart) (pred body : Option Nat) :
    List Str → Pkg → Bool → Option SpecPart →
    Except (AddResult × Pkg) (Pkg × Bool × Option SpecPart)
  | [], pkg, is_empty, reason => .ok (pkg, is_empty, reason)
  | event_str :: rest, pkg, is_empty, reason =>
    let ke :=
      match alook pkg.events event_str with
      | some ev => (event_str, ev)
      | none =>
        (lower event_str,
         { name := lower event_str, probe_map := [], loc := eventPatt.loc })
    match specMode with
    | some modePatt =>
      match getMatchesMode pp provider_str package_str event_str modePatt.name with
      | none =>
        .error (.panicked, { pkg with events := ainsert ke.1 ke.2 pkg.events })
      | some m_matches =>
        let reason2 := if m_matches.isEmpty then some modePatt else reason
        let evi := modeLoop modePatt pred body m_matches ke.2 is_empty
        evtLoop pp provider_str package_str specMode eventPatt pred body rest
          { pkg with events := ainsert ke.1 evi.1 pkg.events } evi.2 reason2
    | none =>
      -- `if let Some(mode_patt)` has no else arm: nothing more happens for
      -- this event (the fresh event insert above still took place).
      evtLoop pp provider_str package_str specMode eventPatt pred body rest
        { pkg with events := ainsert ke.1 ke.2 pkg.events } is_empty reason

/-- The package-level loop (types.rs lines 812–887): look the package up or
insert it at the lowercased key, require an event pattern (else the
"Could not find an event matching pattern!" unexpected error), collect the
event matches, record the event level as the failure reason if none, and
run the event loop. -/
def pkgLoop (pp : Registry) (provider_str : Str) (specEvent specMode : Option SpecPart)
    (packagePatt : SpecPart) (pred body : Option Nat) :
    List Str → Prov → Bool → Option SpecPart →
    Except (AddResult × Prov) (Prov × Bool × Option SpecPart)
  | [], prov, is_empty, reason => .ok (prov, is_empty, reason)
  | package_str :: rest, prov, is_empty, reason =>
    let kp :=
      match alook prov.packages package_str with
      | some pkg => (package_str, pkg)
      | none =>
        (lower package_str,
         { name := lower package_str, events := [], loc := packagePatt.loc })
    match specEvent with
    | some eventPatt =>
      match getMatchesEvent pp provider_str package_str eventPatt.name with
      | none =>
        .error (.panicked, { prov with packages := ainsert kp.1 kp.2 prov.packages })
      | some ev_matches =>
        let reason2 := if ev_matches.isEmpty then some eventPatt else reason
        match evtLoop pp provider_str package_str specMode eventPatt pred body
            ev_matches kp.2 is_empty reason2 with
        | .error (r, pkg2) =>
          .error (r, { prov with packages := ainsert kp.1 pkg2 prov.packages })
        | .ok (pkg2, ie2, reason3) =>
          pkgLoop pp provider_str specEvent specMode packagePatt pred body rest
            { prov with packages := ainsert kp.1 pkg2 prov.packages } ie2 reason3
    | none =>
      .error (.unexpectedNoEvent,
        { prov with packages := ainsert kp.1 kp.2 prov.packages })

/-- Outcome of the provider-level loop: `done` falls through to the final
empty-providers check, `early` is a `return` out of `add_probe`. -/
inductive ProvOut where
  | done (s : Script) (reason : Option SpecPart)
  | early (r : AddResult) (s : Script)

/-- The provider-level loop (types.rs lines 782–901).  Existing providers are
mutated at their key; missing ones are inserted at the lowercased key first.
`BEGIN`/`END` return `Ok` at once; a missing package pattern is the
"Could not find a package matching pattern!" unexpected error; after the
nested loops, a provider under which nothing was inserted is removed at the
(non-lowercased) matched name. -/
def provLoop (pp : Registry) (spec : ProbeSpec) (provPatt : SpecPart)
    (pred body : Option Nat) :
    List Str → Script → Option SpecPart → ProvOut
  | [], s, reason => .done s reason
  | provider_str :: rest, s, reason =>
    let kv :=
      match alook s.providers provider_str with
      | some p => (provider_str, p)
      | none =>
        (lower provider_str,
         { name := lower provider_str, packages := [], loc := provPatt.loc })
    let s1 : Script := { providers := ainsert kv.1 kv.2 s.providers }
    if upper provider_str = "BEGIN".toList ∨ upper provider_str = "END".toList then
      .early .ok s1
    else
      match spec.package with
      | none => .early .unexpectedNoPackage s1
      | some packagePatt =>
        match getMatchesPackage pp provider_str packagePatt.name with
        | none => .early .panicked s1
        | some pkg_matches =>
          let reason2 := if pkg_matches.isEmpty then some packagePatt else reason
          match pkgLoop pp provider_str spec.event spec.mode packagePatt pred body
              pkg_matches kv.2 true reason2 with
          | .error (r, prov2) =>
            .early r { providers := ainsert kv.1 prov2 s1.providers }
          | .ok (prov2, is_empty, reason3) =>
            let s2 : Script := { providers := ainsert kv.1 prov2 s1.providers }
            let s3 : Script :=
              if is_empty then { providers := aremove provider_str s2.providers }
              else s2
            provLoop pp spec provPatt pred body rest s3 reason3

/-- The final empty-providers check (types.rs lines 911–924). -/
def finish (s : Script) (reason : Option SpecPart) : AddResult :=
  if s.providers.isEmpty then
    match reason with
    | some r =>
      match r.loc with
      | some l => .parseErrorPattern l
      | none => .ok
    | none => .ok
  else .ok

/-- `Script::add_probe` (types.rs lines 759–925), returning the result
together with the script as mutated. -/
def addProbe (pp : Registry) (spec : ProbeSpec) (pred body : Option Nat)
    (s : Script) : AddResult × Script :=
  match spec.provider with
  | none => (.unexpectedNoProvider, s)
  | some provPatt =>
    let m := getMatchesProvider pp provPatt.name
    if m.isEmpty then
      match provPatt.loc with
      | some l => (.parseErrorProvider provPatt.name l, s)
      | none => (.panicked, s)
    else
      match provLoop pp spec provPatt pred body m s (some provPatt) with
      | .early r s2 => (r, s2)
      | .done s2 reason => (finish s2 reason, s2)

end AddProbe

namespace AddProbe

/-- The registry of provided probes, modelled from the spec (§4.1): provider
`core` with a single empty package and event and modes `begin`/`end`;
provider `wasm` with package `bytecode`, here restricted to the
representative `call` event, modes `before`/`after`/`alt`.  (`Whamm::new` in
src/src/parser/types.rs line 449 leaves `provided_probes` empty; the
populated registry the spec describes is built outside src/.) -/
def whammRegistry : Registry :=
  [("core".toList, [([], [([], ["begin".toList, "end".toList])])]),
   ("wasm".toList,
     [("bytecode".toList,
       [("call".toList, ["before".toList, "after".toList, "alt".toList])])])]

/-- The probe spec `*:bytecode:call:before`, each part with a source span. -/
def specC3 : ProbeSpec where
  provider := some { name := "*".toList, loc := some 0 }
  package := some { name := "bytecode".toList, loc := some 1 }
  event := some { name := "call".toList, loc := some 2 }
  mode := some { name := "before".toList, loc := some 3 }

theorem getMatchesProvider_star : getMatchesProvider whammRegistry ['*']
    = [['c','o','r','e'], ['w','a','s','m']] := by
  simp [getMatchesProvider, whammRegistry, matchLoop, matchesGlobs, getGlobs,
    splitBar, lower, lowerChar, globMatch_star_true]

end AddProbe

namespace AddProbe

theorem getMatchesPackage_core_bytecode : getMatchesPackage whammRegistry ['c','o','r','e'] ['b','y','t','e','c','o','d','e']
    = some [] := by
  simp [getMatchesPackage, whammRegistry, alook, matchLoop, matchesGlobs, getGlobs,
    splitBar, lower, lowerChar, globMatch]

theorem getMatchesPackage_wasm_bytecode : getMatchesPackage whammRegistry ['w','a','s','m'] ['b','y','t','e','c','o','d','e']
    = some [['b','y','t','e','c','o','d','e']] := by
  simp [getMatchesPackage, whammRegistry, alook, matchLoop, matchesGlobs, getGlobs,
    splitBar, lower, lowerChar, globMatch]

theorem getMatchesEvent_wasm_call : getMatchesEvent whammRegistry ['w','a','s','m'] ['b','y','t','e','c','o','d','e'] ['c','a','l','l']
    = some [['c','a','l','l']] := by
  simp [getMatchesEvent, whammRegistry, alook, matchLoop, matchesGlobs, getGlobs,
    splitBar, lower, lowerChar, globMatch]

theorem getMatchesMode_call_before : getMatchesMode whammRegistry ['w','a','s','m'] ['b','y','t','e','c','o','d','e']
    ['c','a','l','l'] ['b','e','f','o','r','e'] = some [['b','e','f','o','r','e']] := by
  simp [getMatchesMode, whammRegistry, alook, modeMatchLoop, matchesGlobs, getGlobs,
    splitBar, lower, lowerChar, globMatch]

end AddProbe

namespace AddProbe

end AddProbe

namespace AddProbe

theorem evtLoop_error (pp : Registry) (prov pkgs : Str) (sm : Option SpecPart)
    (ep : SpecPart) (pred body : Option Nat) :
    ∀ (l : List Str) (pkg : Pkg) (ie : Bool) (reason : Option SpecPart)
      (r : AddResult) (p2 : Pkg),
    evtLoop pp prov pkgs sm ep pred body l pkg ie reason = Except.error (r, p2) →
    r = AddResult.panicked := by
  intro l
  induction l with
  | nil =>
    intro pkg ie reason r p2 h
    simp [evtLoop] at h
  | cons e rest ih =>
    intro pkg ie reason r p2 h
    cases sm with
    | none =>
      simp only [evtLoop] at h
      exact ih _ _ _ _ _ h
    | some modePatt =>
      simp only [evtLoop] at h
      cases hgm : getMatchesMode pp prov pkgs e modePatt.name with
      | none =>
        rw [hgm] at h
        simp at h
        exact h.1.symm
      | some ms =>
        rw [hgm] at h
        exact ih _ _ _ _ _ h

theorem pkgLoop_error (pp : Registry) (prov : Str) (se sm : Option SpecPart)
    (pkgPatt : SpecPart) (pred body : Option Nat) :
    ∀ (l : List Str) (pv : Prov) (ie : Bool) (reason : Option SpecPart)
      (r : AddResult) (p2 : Prov),
    pkgLoop pp prov se sm pkgPatt pred body l pv ie reason = Except.error (r, p2) →
    r = AddResult.panicked ∨ r = AddResult.unexpectedNoEvent := by
  intro l
  induction l with
  | nil =>
    intro pv ie reason r p2 h
    simp [pkgLoop] at h
  | cons p rest ih =>
    intro pv ie reason r p2 h
    cases se with
    | none =>
      simp only [pkgLoop] at h
      simp at h
      exact Or.inr h.1.symm
    | some eventPatt =>
      simp only [pkgLoop] at h
      cases hge : getMatchesEvent pp prov p eventPatt.name with
      | none =>
        rw [hge] at h
        simp at h
        exact Or.inl h.1.symm
      | some evm =>
        rw [hge] at h
        simp at h
        rcases hev : evtLoop pp prov p sm eventPatt pred body evm
            (match alook pv.packages p with
             | some pkg => (p, pkg)
             | none => (lower p, { name := lower p, events := [], loc := pkgPatt.loc })).2
            ie (if evm = [] then some eventPatt else reason) with ⟨r3, p3⟩ | ok3
        · rw [hev] at h
          simp at h
          exact Or.inl (h.1 ▸ evtLoop_error pp prov p sm eventPatt pred body evm _ _ _ _ _ hev)
        · rw [hev] at h
          exact ih _ _ _ _ _ h

end AddProbe

namespace AddProbe

theorem provLoop_early (pp : Registry) (spec : ProbeSpec) (provPatt : SpecPart)
    (pred body : Option Nat) :
    ∀ (names : List Str) (s : Script) (r0 : Option SpecPart)
      (r : AddResult) (s2 : Script),
    provLoop pp spec provPatt pred body names s r0 = ProvOut.early r s2 →
    r = AddResult.ok ∨ r = AddResult.unexpectedNoPackage ∨
      r = AddResult.unexpectedNoEvent ∨ r = AddResult.panicked := by
  intro names
  induction names with
  | nil =>
    intro s r0 r s2 h
    simp [provLoop] at h
  | cons pstr rest ih =>
    intro s r0 r s2 h
    simp only [provLoop] at h
    by_cases hbe : upper pstr = "BEGIN".toList ∨ upper pstr = "END".toList
    · rw [if_pos hbe] at h
      simp at h
      exact Or.inl h.1.symm
    · rw [if_neg hbe] at h
      cases hsp : spec.package with
      | none =>
        simp only [hsp] at h
        simp at h
        exact Or.inr (Or.inl h.1.symm)
      | some packagePatt =>
        simp only [hsp] at h
        cases hgp : getMatchesPackage pp pstr packagePatt.name with
        | none =>
          simp only [hgp] at h
          simp at h
          exact Or.inr (Or.inr (Or.inr h.1.symm))
        | some pkg_matches =>
          simp only [hgp] at h
          rcases hpl : pkgLoop pp pstr spec.event spec.mode packagePatt pred body
              pkg_matches
              (match alook s.providers pstr with
               | some p => (pstr, p)
               | none => (lower pstr,
                   { name := lower pstr, packages := [], loc := provPatt.loc })).2
              true
              (if pkg_matches.isEmpty then some packagePatt else r0) with ⟨r3, pv3⟩ | ok3
          · simp only [hpl] at h
            simp at h
            rcases pkgLoop_error pp pstr spec.event spec.mode packagePatt pred body
                pkg_matches _ _ _ _ _ hpl with hp | hp
            · exact Or.inr (Or.inr (Or.inr (h.1 ▸ hp)))
            · exact Or.inr (Or.inr (Or.inl (h.1 ▸ hp)))
          · simp only [hpl] at h
            exact ih _ _ _ _ h

end AddProbe

/-- C3 counterexample: against the registry of provided probes (spec §4.1),
the probe spec `*:bytecode:call:before` makes the package level produce zero
glob matches under the matched provider `core` (first conjunct), yet
`add_probe` returns `Ok` — no parse error at the package part's span — because
the sibling provider `wasm` matched all the way down and the final
`providers`-empty check therefore passes; the probe clone is inserted only
under `wasm:bytecode:call` (second conjunct). -/
theorem c3_add_probe_counterexample :
    AddProbe.getMatchesPackage AddProbe.whammRegistry "core".toList "bytecode".toList
      = some [] ∧
    AddProbe.addProbe AddProbe.whammRegistry AddProbe.specC3 (some 7) none
      { providers := [] } =
      (AddProbe.AddResult.ok,
       { providers :=
         [("wasm".toList,
           { name := "wasm".toList,
             packages :=
               [("bytecode".toList,
                 { name := "bytecode".toList,
                   events :=
                     [("call".toList,
                       { name := "call".toList,
                         probe_map :=
                           [("before".toList,
                             [{ mode := "before".toList, loc := some 3,
                                predicate := some 7, body := none }])],
                         loc := some 2 })],
                   loc := some 1 })],
             loc := some 0 })] }) := by
  constructor
  · exact AddProbe.getMatchesPackage_core_bytecode
  · simp [AddProbe.addProbe, AddProbe.specC3, AddProbe.provLoop, AddProbe.pkgLoop,
      AddProbe.evtLoop, AddProbe.modeLoop, AddProbe.insertProbe, AddProbe.ainsert,
      AddProbe.aremove, AddProbe.alook, AddProbe.apush, AddProbe.finish,
      AddProbe.upper, AddProbe.upperChar, AddProbe.lower, AddProbe.lowerChar,
      AddProbe.getMatchesProvider_star, AddProbe.getMatchesPackage_core_bytecode,
      AddProbe.getMatchesPackage_wasm_bytecode, AddProbe.getMatchesEvent_wasm_call,
      AddProbe.getMatchesMode_call_before]

/-- C3 amended: `add_probe`'s parse errors arise in exactly two places.
(1) If the provider level itself produces zero glob matches (and the provider
part carries a location), the call returns the provider parse error at that
location at once.  (2) The provider loop never early-returns a parse error:
zero matches at the package, event or mode level only set the recorded
`reason`, so a mid-spec level with zero matches produces no error whenever
some other matched provider's subtree keeps the final `providers` map
non-empty.  (3)–(4) After the loop, the "Could not find any matches for this
pattern" parse error is returned precisely when the script's `providers` map
ended empty and the recorded reason part carries a location — its span being
that (last-recorded) level's location, not necessarily the first failing
level's. -/
theorem c3_add_probe_amended :
    (∀ (pp : AddProbe.Registry) (spec : AddProbe.ProbeSpec)
       (provPatt : AddProbe.SpecPart) (l : Nat)
       (pred body : Option Nat) (s : AddProbe.Script),
       spec.provider = some provPatt →
       AddProbe.getMatchesProvider pp provPatt.name = [] →
       provPatt.loc = some l →
       AddProbe.addProbe pp spec pred body s =
         (AddProbe.AddResult.parseErrorProvider provPatt.name l, s)) ∧
    (∀ (pp : AddProbe.Registry) (spec : AddProbe.ProbeSpec)
       (provPatt : AddProbe.SpecPart) (pred body : Option Nat)
       (names : List AddProbe.Str) (s : AddProbe.Script)
       (r0 : Option AddProbe.SpecPart) (r : AddProbe.AddResult)
       (s2 : AddProbe.Script),
       AddProbe.provLoop pp spec provPatt pred body names s r0 =
         AddProbe.ProvOut.early r s2 →
       (∀ (n : AddProbe.Str) (l : Nat),
          r ≠ AddProbe.AddResult.parseErrorProvider n l) ∧
       (∀ l : Nat, r ≠ AddProbe.AddResult.parseErrorPattern l)) ∧
    (∀ (s : AddProbe.Script) (part : AddProbe.SpecPart) (l : Nat),
       s.providers = [] → part.loc = some l →
       AddProbe.finish s (some part) = AddProbe.AddResult.parseErrorPattern l) ∧
    (∀ (s : AddProbe.Script) (reason : Option AddProbe.SpecPart),
       s.providers ≠ [] → AddProbe.finish s reason = AddProbe.AddResult.ok) := by
  refine ⟨?_, ?_, ?_, ?_⟩
  · intro pp spec provPatt l pred body s h1 h2 h3
    simp [AddProbe.addProbe, h1, h2, h3]
  · intro pp spec provPatt pred body names s r0 r s2 h
    rcases AddProbe.provLoop_early pp spec provPatt pred body names s r0 r s2 h with
      hr | hr | hr | hr <;>
      exact ⟨fun n l => by simp [hr], fun l => by simp [hr]⟩
  · intro s part l h1 h2
    simp [AddProbe.finish, h1, h2]
  · intro s reason h
    simp [AddProbe.finish, List.isEmpty_iff, h]

/-- C3 amended witness: the provider-level error at a concrete unmatched
provider pattern; a concrete `BEGIN` early `Ok` exit of the provider loop is
no pattern parse error; the final check fires on an empty providers map with
a located reason and passes on a non-empty one. -/
theorem c3_add_probe_amended_witness :
    AddProbe.addProbe AddProbe.whammRegistry
      { provider := some { name := "nosuch".toList, loc := some 5 },
        package := none, event := none, mode := none } none none
      { providers := [] } =
      (AddProbe.AddResult.parseErrorProvider "nosuch".toList 5,
       { providers := [] }) ∧
    (∀ l : Nat, AddProbe.AddResult.ok ≠ AddProbe.AddResult.parseErrorPattern l) ∧
    AddProbe.finish { providers := [] }
      (some { name := "x".toList, loc := some 9 }) =
      AddProbe.AddResult.parseErrorPattern 9 ∧
    AddProbe.finish
      { providers := [("wasm".toList,
          { name := "wasm".toList, packages := [], loc := none })] } none =
      AddProbe.AddResult.ok := by
  have hg : AddProbe.getMatchesProvider AddProbe.whammRegistry "nosuch".toList = [] := by
    simp [AddProbe.getMatchesProvider, AddProbe.whammRegistry, AddProbe.matchLoop,
      AddProbe.matchesGlobs, AddProbe.getGlobs, AddProbe.splitBar, AddProbe.lower,
      AddProbe.lowerChar, AddProbe.globMatch]
  have hpl : AddProbe.provLoop AddProbe.whammRegistry
      { provider := none, package := none, event := none, mode := none }
      { name := [], loc := none } none none ["BEGIN".toList]
      { providers := [] } none =
      AddProbe.ProvOut.early AddProbe.AddResult.ok
        { providers := [("begin".toList,
            { name := "begin".toList, packages := [], loc := none })] } := by
    simp [AddProbe.provLoop, AddProbe.upper, AddProbe.upperChar, AddProbe.lower,
      AddProbe.lowerChar, AddProbe.alook, AddProbe.ainsert]
  refine ⟨?_, ?_, ?_, ?_⟩
  · exact c3_add_probe_amended.1 AddProbe.whammRegistry
      { provider := some { name := "nosuch".toList, loc := some 5 },
        package := none, event := none, mode := none }
      { name := "nosuch".toList, loc := some 5 } 5 none none
      { providers := [] } rfl hg rfl
  · exact (c3_add_probe_amended.2.1 AddProbe.whammRegistry _ _ none none _ _ none _ _
      hpl).2
  · exact c3_add_probe_amended.2.2.1 { providers := [] }
      { name := "x".toList, loc := some 9 } 9 rfl rfl
  · exact c3_add_probe_amended.2.2.2 _ none (by simp)
